import Mathlib

/-!
Verification of the BareMetalM4 kernel core (process table, scheduler,
timer tick, sleep, semaphores, physical/virtual memory managers, heap
allocator, page-fault handler) against its natural-language specification.

The definitions below are a shallow embedding of the C sources:

* `src/src/kernel/scheduler.c` — `schedule`, `timer_tick`, `sleep`
* `src/src/kernel/process.c`  — `create_process`, `exit`, `create_user_process`
* `src/src/semaphore.c`       — `sem_wait`, `sem_signal` (busy-wait variant)
* `src/src/mm/pmm.c`          — `get_free_page`, `free_page`
* `src/src/mm/vmm.c`          — `map_page`
* `src/src/mm/malloc.c`       — `kmalloc`
* `src/src/kernel/sys.c`      — `handle_fault`

Machine integers are modelled as `Nat`/`Int`, with explicit `% 2 ^ 64` /
`% 2 ^ 32` truncation at the two places where C unsigned wraparound and a
narrowing conversion are observable (`free_page`).  Process-table loops
(fixed bound `MAX_PROCESS = 64`) become folds over `List.finRange 64`;
the PMM bitmap loop (fixed bound `TOTAL_PAGES = 32768`) becomes a
`List.find?` over `List.range 32768`.

Modelled from the spec: the repository tree contains only an outdated
`include/sched.h` (it lacks the `PROCESS_UNUSED` state, the block-reason
constants, and the `quantum`/`wake_up_time`/`block_reason`/`stack_addr`
PCB fields that every `.c` file uses), so those pure declarations are
reconstructed from spec §3: `state ∈ {UNUSED, READY, RUNNING, BLOCKED,
ZOMBIE}`, `block_reason ∈ {NONE, SLEEP, WAIT}`, and `DEFAULT_QUANTUM` is
an unspecified positive constant, kept here as an explicit parameter
`DQ` of the operations that use it.  All behaviour is taken from the
`.c` files themselves.
-/

namespace BareMetal

/-- Process states, spec §3 (the macro values are in the missing header;
only the five-way distinction is observable in the embedded code). -/
inductive PState
  | UNUSED
  | READY
  | RUNNING
  | BLOCKED
  | ZOMBIE
deriving DecidableEq, Repr

/-- Block reasons, spec §3: NONE, SLEEP (sleep queue), WAIT (semaphore). -/
inductive BlockReason
  | NONE
  | SLEEP
  | WAIT
deriving DecidableEq, Repr

/-- Process control block: the fields of `struct pcb` written by the code
under verification.  The saved `cpu_context` is represented by the four
registers `create_process` initialises (`x19`, `x20`, `pc`, `sp`). -/
structure PCB where
  state : PState
  pid : Int
  priority : Int
  quantum : Int
  wakeUpTime : Nat
  blockReason : BlockReason
  cpuTime : Nat
  exitCode : Int
  premptCount : Int
  stackAddr : Nat
  name : String
  x19 : Nat
  x20 : Nat
  pc : Nat
  sp : Nat
deriving DecidableEq, Repr

/-- Kernel scheduler state: the process table `process[MAX_PROCESS]` with
`MAX_PROCESS = 64`, the `current_process` pointer (kept as an index),
the global tick counter `sys_timer_count` and the deferred-reschedule
flag `need_reschedule` from `scheduler.c`. -/
structure KState where
  procs : Fin 64 → PCB
  currentIdx : Fin 64
  sysTimerCount : Nat
  needReschedule : Bool
deriving DecidableEq

/-- Helper: write one slot of the process table. -/
def updProc (s : KState) (i : Fin 64) (p : PCB) : KState :=
  { s with procs := Function.update s.procs i p }

/-- Phase 1 of `schedule` (scheduler.c lines 88-95): every READY process
whose index differs from `current_process->pid` ages, `priority--`
floored at 0. -/
def agingPhase (s : KState) : KState :=
  { s with procs := fun i =>
      let p := s.procs i
      if p.state = .READY ∧ ((i : Nat) : Int) ≠ (s.procs s.currentIdx).pid then
        if 0 < p.priority then { p with priority := p.priority - 1 } else p
      else p }

/-- One iteration of the selection loop (scheduler.c lines 101-108):
accumulator is `(next_pid, highest_priority_found)` with `none`
standing for the C sentinel `-1`. -/
def selStep (s : KState) (acc : Option (Fin 64) × Int) (i : Fin 64) :
    Option (Fin 64) × Int :=
  let p := s.procs i
  if (p.state = .READY ∨ p.state = .RUNNING) ∧ p.priority < acc.2 then
    (some i, p.priority)
  else acc

/-- Phase 2 of `schedule`: scan all 64 slots starting from
`next_pid = -1`, `highest_priority_found = 1000`. -/
def selectFold (s : KState) : Option (Fin 64) × Int :=
  (List.finRange 64).foldl (selStep s) (none, 1000)

/-- Phase 3 of `schedule` (scheduler.c lines 124-133): penalise the
selected slot `j` (`+2` only when `priority < 10`) and give it a fresh
quantum when its `pid > 0`. -/
def penalize (DQ : Nat) (s : KState) (j : Fin 64) : KState :=
  let pj := s.procs j
  let pj1 := if pj.priority < 10 then { pj with priority := pj.priority + 2 } else pj
  let pj2 := if 0 < pj1.pid then { pj1 with quantum := (DQ : Int) } else pj1
  updProc s j pj2

/-- Phase 4 of `schedule` (scheduler.c lines 135-141): when `prev !=
next`, demote `prev` to READY only if it is still RUNNING, promote
the selected slot to RUNNING and make it current (the external
`cpu_switch_to` has no further effect on this state). -/
def switchTo (s : KState) (j : Fin 64) : KState :=
  if s.currentIdx = j then s
  else
    let prev := s.procs s.currentIdx
    let s2 := if prev.state = .RUNNING then
        updProc s s.currentIdx { prev with state := .READY }
      else s
    { updProc s2 j { s2.procs j with state := .RUNNING } with currentIdx := j }

/-- Phases 3 and 4 together, as executed after selection. -/
def penaltyAndSwitch (DQ : Nat) (s : KState) (j : Fin 64) : KState :=
  switchTo (penalize DQ s j) j

/-- The scheduler `schedule()` of scheduler.c: clear `need_reschedule`,
age, select (falling back to slot 0 when nobody is READY/RUNNING below
the 1000 threshold, healing slot 0 to READY if it is not runnable),
penalise, and switch.  `DQ` is the `DEFAULT_QUANTUM` constant. -/
def schedule (DQ : Nat) (s : KState) : KState :=
  let s1 := agingPhase { s with needReschedule := false }
  match (selectFold s1).1 with
  | some j => penaltyAndSwitch DQ s1 j
  | none =>
      let p0 := s1.procs (0 : Fin 64)
      let s2 := if p0.state ≠ .RUNNING ∧ p0.state ≠ .READY then
          updProc s1 (0 : Fin 64) { p0 with state := .READY }
        else s1
      penaltyAndSwitch DQ s2 (0 : Fin 64)

/-- The slot `schedule` switches to (`next_pid` after the fallback). -/
def scheduleSelect (s : KState) : Fin 64 :=
  match (selectFold (agingPhase { s with needReschedule := false })).1 with
  | some j => j
  | none => (0 : Fin 64)

/-- Quantum half of `timer_tick` (scheduler.c lines 176-196), applied to
a state whose tick counter has already been incremented: when the
current process is RUNNING its `cpu_time` grows, and when additionally
its pid is positive its quantum is decremented, raising
`need_reschedule` when the result is ≤ 0. -/
def tickQuantum (s : KState) : KState :=
  let cur := s.procs s.currentIdx
  if cur.state = .RUNNING then
    let cur1 := { cur with cpuTime := cur.cpuTime + 1 }
    if 0 < cur1.pid then
      let cur2 := { cur1 with quantum := cur1.quantum - 1 }
      { updProc s s.currentIdx cur2 with
        needReschedule := if cur2.quantum ≤ 0 then true else s.needReschedule }
    else updProc s s.currentIdx cur1
  else s

/-- Wake-up half of `timer_tick` (scheduler.c lines 200-214): every
BLOCKED process with `block_reason == SLEEP` whose `wake_up_time` has
been reached becomes READY with reason NONE. -/
def wakeSleepers (s : KState) : KState :=
  { s with procs := fun i =>
      let p := s.procs i
      if p.state = .BLOCKED ∧ p.blockReason = .SLEEP ∧ p.wakeUpTime ≤ s.sysTimerCount then
        { p with state := .READY, blockReason := .NONE }
      else p }

/-- The timer interrupt handler `timer_tick()`: increment
`sys_timer_count`, then the quantum bookkeeping, then the wake-up scan
(which reads the incremented counter).  It never calls `schedule()`. -/
def timerTick (s : KState) : KState :=
  wakeSleepers (tickQuantum { s with sysTimerCount := s.sysTimerCount + 1 })

/-- First half of `sleep(ticks)` (scheduler.c lines 239-246): the current
process records `wake_up_time = sys_timer_count + ticks` and becomes
BLOCKED with reason SLEEP. -/
def blockCurrent (s : KState) (ticks : Nat) : KState :=
  updProc s s.currentIdx
    { s.procs s.currentIdx with
      wakeUpTime := s.sysTimerCount + ticks
      state := .BLOCKED
      blockReason := .SLEEP }

/-- The full `sleep(ticks)`: block, then `schedule()` immediately
(the trailing `enable_interrupts()` has no state in this model). -/
def sleepStep (DQ : Nat) (ticks : Nat) (s : KState) : KState :=
  schedule DQ (blockCurrent s ticks)

/-- The `exit()` path (process.c lines 201-212): mark the current process
ZOMBIE, then yield through `schedule()`. -/
def exitStep (DQ : Nat) (s : KState) : KState :=
  schedule DQ (updProc s s.currentIdx { s.procs s.currentIdx with state := .ZOMBIE })

/-- One kernel step for the temporal claims: a voluntary or
interrupt-return `schedule()`, a timer interrupt, or a `sleep`/`exit`
by the current process.  The `sleep`/`exit` constructors carry the
side condition that the caller is not slot 0: the idle process (pid 0)
is the kernel idle loop of kernel/kernel.c, whose body
(`free_zombie(); wfi`) contains no call to `sleep()` or `exit()`. -/
inductive Step (DQ : Nat) : KState → KState → Prop
  | sched (s : KState) : Step DQ s (schedule DQ s)
  | tick (s : KState) : Step DQ s (timerTick s)
  | sleeps (s : KState) (ticks : Nat) (h : (s.currentIdx : Nat) ≠ 0) :
      Step DQ s (sleepStep DQ ticks s)
  | exits (s : KState) (h : (s.currentIdx : Nat) ≠ 0) :
      Step DQ s (exitStep DQ s)

/-- Scheduler invariant: a slot is RUNNING exactly when it is the current
one (hence exactly one PCB is RUNNING), slot 0 (the idle process) is
always runnable, and every initialised (non-UNUSED) PCB's `pid` field
equals its slot index (established by
`init_process_system`/`create_process` and never changed). -/
def Inv (s : KState) : Prop :=
  (∀ i, (s.procs i).state = .RUNNING ↔ i = s.currentIdx) ∧
  ((s.procs (0 : Fin 64)).state = .RUNNING ∨ (s.procs (0 : Fin 64)).state = .READY) ∧
  (∀ i, (s.procs i).state ≠ .UNUSED → (s.procs i).pid = ((i : Nat) : Int))

/-- Precondition under which `schedule()` runs in any reachable state:
at most one RUNNING slot (the current one), slot 0 runnable, pids
correct, and the current slot is either still RUNNING (an ordinary
voluntary/preemptive call) or a non-idle slot that has just made
itself BLOCKED or ZOMBIE (the `sleep`/`exit` paths). -/
def Pre (s : KState) : Prop :=
  (∀ i, (s.procs i).state = .RUNNING → i = s.currentIdx) ∧
  ((s.procs (0 : Fin 64)).state = .RUNNING ∨ (s.procs (0 : Fin 64)).state = .READY) ∧
  (∀ i, (s.procs i).state ≠ .UNUSED → (s.procs i).pid = ((i : Nat) : Int)) ∧
  ((s.procs s.currentIdx).state = .RUNNING ∨
    ((s.currentIdx : Nat) ≠ 0 ∧
      ((s.procs s.currentIdx).state = .BLOCKED ∨ (s.procs s.currentIdx).state = .ZOMBIE)))

instance : DecidablePred Inv := fun s => by
  unfold Inv
  infer_instance

/-- The all-zero PCB of the `.bss`-resident process table before any
initialisation (state 0 is UNUSED in the spec's state enumeration). -/
def zeroPCB : PCB :=
  { state := .UNUSED, pid := 0, priority := 0, quantum := 0, wakeUpTime := 0,
    blockReason := .NONE, cpuTime := 0, exitCode := 0, premptCount := 0,
    stackAddr := 0, name := "", x19 := 0, x20 := 0, pc := 0, sp := 0 }

/-- Slot 0 as initialised by `init_process_system()` (process.c lines
164-185): the RUNNING kernel/idle process with priority 0. -/
def idlePCB : PCB :=
  { zeroPCB with
    state := .RUNNING
    pid := 0
    priority := 0
    stackAddr := 0
    premptCount := 0
    name := "Kernel" }

/-- The state after `init_process_system()`: slot 0 is the idle PCB,
every other slot is the zero-initialised UNUSED PCB, the current
process is slot 0. -/
def initState : KState :=
  { procs := Function.update (fun _ => zeroPCB) (0 : Fin 64) idlePCB
    currentIdx := (0 : Fin 64)
    sysTimerCount := 0
    needReschedule := false }

/-! ## Semaphores (src/src/semaphore.c)

The sources implement busy-wait semaphores: `struct semaphore` holds a
single `volatile int count` (semaphore.h line 47-81); there is no
wait-queue field.  `sem_wait` loops: under the global spinlock
`sem_lock` it decrements and returns when `count > 0`, otherwise it
releases the spinlock and calls `schedule()`, retrying forever.
`sem_signal` increments `count` under the spinlock and touches nothing
else. -/

/-- Combined semaphore/kernel state for the semaphore claims: the
`count` field of one `struct semaphore`, the global spinlock
`sem_lock` (0 = free, modelled as `Bool`), and the scheduler state. -/
structure SemSys where
  count : Int
  semLock : Bool
  kern : KState
deriving DecidableEq

/-- `sem_init(s, value)` (semaphore.c line 117-127). -/
def semInit (value : Int) (s : SemSys) : SemSys :=
  { s with count := value }

/-- One iteration of the `while (1)` loop of `sem_wait` (semaphore.c
lines 226-276), executed by the current process: take the spinlock;
if `count > 0` decrement, release and return `true` (acquired);
otherwise release the spinlock first and only then call `schedule()`,
returning `false` (the caller will iterate again when next scheduled).
The caller's PCB is never modified by this function. -/
def semWaitIter (DQ : Nat) (s : SemSys) : SemSys × Bool :=
  let locked := { s with semLock := true }
  if locked.count > 0 then
    ({ locked with count := locked.count - 1, semLock := false }, true)
  else
    let unlocked := { locked with semLock := false }
    ({ unlocked with kern := schedule DQ unlocked.kern }, false)

/-- `sem_signal` (semaphore.c lines 320-355): increment `count` under
the spinlock; no wake-up, no queue manipulation, no PCB access. -/
def semSignal (s : SemSys) : SemSys :=
  { s with count := s.count + 1, semLock := false }

/-! ## Heap allocator (src/src/mm/malloc.c)

The heap is a contiguous region starting at a 16-byte-aligned address;
its block list is fully described by the start address and the ordered
list of `(payload size, is_free)` pairs, each block preceded by its
16-byte `struct block_header`.  The byte contents of payloads are not
modelled (the zero-fill of `kmalloc` has no observable effect on the
claims under verification). -/

/-- One heap block: `size` is the payload size excluding the header,
`isFree` the `is_free` flag. -/
structure HBlock where
  size : Nat
  isFree : Bool
deriving DecidableEq, Repr

/-- Header size: `sizeof(struct block_header)` = 8 + 8 + 1 + 7 = 16. -/
def HEADER_SIZE : Nat := 16

/-- The walk of `kmalloc` (malloc.c lines 69-106) over the block list,
tracking the address `addr` of the current block header.  Returns the
payload pointer and the updated list on success.  The split happens
only when `curr->size > size + sizeof(header) + 16`. -/
def kmallocGo (asz : Nat) : Nat → List HBlock → Option (Nat × List HBlock)
  | _, [] => none
  | addr, b :: rest =>
      if b.isFree ∧ asz ≤ b.size then
        if asz + HEADER_SIZE + 16 < b.size then
          some (addr + HEADER_SIZE,
            ⟨asz, false⟩ :: ⟨b.size - asz - HEADER_SIZE, true⟩ :: rest)
        else
          some (addr + HEADER_SIZE, { b with isFree := false } :: rest)
      else
        (kmallocGo asz (addr + HEADER_SIZE + b.size) rest).map
          (fun r => (r.1, b :: r.2))

/-- Heap state: start of the managed region (16-byte aligned, as
produced by `kheap_init`) and the block list. -/
structure Heap where
  start : Nat
  blocks : List HBlock
deriving DecidableEq, Repr

/-- `kmalloc(size)` (malloc.c lines 61-109): align the request to 16
bytes (the `uint32_t` wrap of the alignment addition is irrelevant for
the sizes that occur in the kernel and is not modelled), first-fit
walk, `none` = the C `nullptr` out-of-memory sentinel. -/
def kmalloc (size : Nat) (h : Heap) : Option (Nat × Heap) :=
  let asz := if size % 16 ≠ 0 then size + (16 - size % 16) else size
  (kmallocGo asz h.start h.blocks).map (fun r => (r.1, { h with blocks := r.2 }))

/-! ## Process creation (src/src/kernel/process.c) -/

/-- Result of `create_process`: the returned pid (`-1` on failure), the
process table, the heap, and the `num_process` counter. -/
structure CPResult where
  pid : Int
  procs : Fin 64 → PCB
  heap : Heap
  numProcess : Int
deriving DecidableEq

/-- `create_process(fn, arg, priority, name)` (process.c lines 79-131):
find the first UNUSED slot (error `-1` if none), allocate a 4096-byte
stack (`-1` if the heap is exhausted — the slot is not consumed),
then initialise the PCB fields exactly as the source does.  The
`quantum` field is NOT written (the source comment defers it to
`schedule()`).  `fn`/`arg` are the numeric values of the C pointers;
`retFromFork` is the address of the external `ret_from_fork` symbol. -/
def createProcess (fn arg : Nat) (priority : Int) (name : String)
    (retFromFork : Nat) (procs : Fin 64 → PCB) (h : Heap) (num : Int) : CPResult :=
  match (List.finRange 64).find? (fun i => (procs i).state = .UNUSED) with
  | none => ⟨-1, procs, h, num⟩
  | some i =>
      match kmalloc 4096 h with
      | none => ⟨-1, procs, h, num⟩
      | some (stack, h1) =>
          let p := procs i
          let p1 : PCB :=
            { p with
              stackAddr := stack
              pid := ((i : Nat) : Int)
              state := .READY
              priority := priority
              premptCount := 0
              wakeUpTime := 0
              cpuTime := 0
              blockReason := .NONE
              exitCode := 0
              name := name.take 15
              x19 := fn
              x20 := arg
              pc := retFromFork
              sp := stack + 4096 }
          ⟨((i : Nat) : Int), Function.update procs i p1, h1, num + 1⟩

/-- Outcome of `create_user_process`: either the result of the inner
`create_process` call together with the two allocation addresses, or
the undefined behaviour of storing through the null `ctx` pointer. -/
inductive CUPOutcome
  | ok (r : CPResult) (userStack ctx ctxPc ctxSp : Nat)
  | nullStore
deriving DecidableEq

/-- `create_user_process(user_fn, name)` (process.c lines 326-337): two
`kmalloc` calls with NO null check.  `ctx = kmalloc(sizeof(struct
user_context))` (16 bytes) is dereferenced unconditionally
(`ctx->pc = ...`), so a failed allocation is a store through the null
pointer (`CUPOutcome.nullStore`); a failed stack allocation silently
produces `ctx->sp = 0 + 4096`.  `wrapper` is the address of
`kernel_to_user_wrapper`. -/
def createUserProcess (userFn : Nat) (name : String)
    (wrapper retFromFork : Nat) (procs : Fin 64 → PCB) (h : Heap) (num : Int) :
    CUPOutcome :=
  let r1 := kmalloc 4096 h
  let userStack : Nat := match r1 with
    | none => 0
    | some (a, _) => a
  let h1 : Heap := match r1 with
    | none => h
    | some (_, h1) => h1
  match kmalloc 16 h1 with
  | none => .nullStore
  | some (ctx, h2) =>
      .ok (createProcess wrapper ctx 10 name retFromFork procs h2 num)
        userStack ctx userFn (userStack + 4096)

/-! ## Physical and virtual memory (src/src/mm/pmm.c, vmm.c),
page-fault handler (src/src/kernel/sys.c)

The PMM manages `TOTAL_PAGES = 128MB / 4096 = 32768` pages through the
byte array `mem_map[4096]`.  Page-table pages are modelled as a store
`tables : Nat → Nat → Nat` mapping a table page address and an entry
index (meaningful for indices < 512) to the 64-bit descriptor; a write
through `setEntry` is an ordinary memory store, and the zero-fill of a
freshly allocated page resets the whole table at that address. -/

/-- Combined PMM + page-table memory state. -/
structure VmmState where
  pmmMap : Nat → Nat
  physStart : Nat
  tables : Nat → Nat → Nat

/-- Store descriptor `v` at index `i` of the table page at address `a`. -/
def setEntry (t : Nat → Nat → Nat) (a i v : Nat) : Nat → Nat → Nat :=
  fun a1 i1 => if a1 = a ∧ i1 = i then v else t a1 i1

/-- `get_free_page()` (pmm.c lines 63-86): first-fit scan of the bitmap
for a clear bit; on success set the bit, compute
`phys_mem_start + i * PAGE_SIZE`, zero-fill the page; on exhaustion
return the sentinel 0 with the state untouched. -/
def getFreePage (st : VmmState) : Nat × VmmState :=
  match (List.range 32768).find?
      (fun i => st.pmmMap (i / 8) &&& (1 <<< (i % 8)) == 0) with
  | some i =>
      let addr := st.physStart + i * 4096
      (addr,
        { st with
          pmmMap := fun b =>
            if b = i / 8 then st.pmmMap b ||| (1 <<< (i % 8)) else st.pmmMap b
          tables := Function.update st.tables addr (fun _ => 0) })
  | none => (0, st)

/-- Truncation of an unsigned 64-bit value to a C `int` (the
implementation-defined aarch64/gcc behaviour: reduce mod `2^32`, then
interpret the top bit as the sign). -/
def toInt32 (x : Nat) : Int :=
  let r : Nat := x % 2 ^ 32
  if r < 2 ^ 31 then (r : Int) else (r : Int) - 2 ^ 32

/-- `free_page(p)` (pmm.c lines 91-102): `offset = p - phys_mem_start`
(unsigned 64-bit wraparound), `int index = offset / PAGE_SIZE` (the
u64 quotient narrowed to `int`), defensive range check, then clear
bit `index % 8` of byte `index / 8` (an 8-bit store). -/
def freePage (st : VmmState) (p : Nat) : VmmState :=
  let offset := (p + 2 ^ 64 - st.physStart % 2 ^ 64) % 2 ^ 64
  let index : Int := toInt32 (offset / 4096)
  if index < 0 ∨ 32768 ≤ index then st
  else
    let idx := index.toNat
    { st with
      pmmMap := fun b =>
        if b = idx / 8 then st.pmmMap b &&& (255 ^^^ (1 <<< (idx % 8)))
        else st.pmmMap b }

/-- ARM64 descriptor constants from include/mm/vmm.h. -/
def PT_TABLE : Nat := 3

def PT_PAGE : Nat := 3

def MM_ACCESS : Nat := 1 <<< 10

def MM_SH : Nat := 3 <<< 8

def MM_RW : Nat := 0

def MM_USER : Nat := 1 <<< 6

def MM_KERNEL : Nat := 0

def ATTR_NORMAL : Nat := 1

/-- Final level of `map_page` (vmm.c lines 105-108): write the leaf
descriptor `phys | PT_PAGE | MM_ACCESS | flags` at index `l3i` of the
L3 table at `l3t`. -/
def writeLeaf (st : VmmState) (l3t l3i phys flags : Nat) : VmmState :=
  { st with tables := setEntry st.tables l3t l3i (phys ||| PT_PAGE ||| MM_ACCESS ||| flags) }

/-- L2 stage of `map_page` (vmm.c lines 87-103): follow or lazily create
the L3 table; on PMM exhaustion print an error and return with the
mapping aborted (the function is `void`, nothing is reported). -/
def mapPageL2 (st : VmmState) (l2t l2i l3i phys flags : Nat) : VmmState :=
  if st.tables l2t l2i &&& 1 = 0 then
    let r := getFreePage st
    if r.1 = 0 then r.2
    else
      writeLeaf { r.2 with tables := setEntry r.2.tables l2t l2i (r.1 ||| PT_TABLE ||| 1) }
        r.1 l3i phys flags
  else
    writeLeaf st (st.tables l2t l2i &&& 0xFFFFFFFFF000) l3i phys flags

/-- `map_page(root_table, virt, phys, flags)` (vmm.c lines 63-114):
3-level walk with lazy allocation of the intermediate L2/L3 tables
from the PMM.  Return type is `VmmState` only — the C function returns
`void`, so a table-walk failure is not observable by the caller. -/
def mapPage (st : VmmState) (root virt phys flags : Nat) : VmmState :=
  let l1i := (virt >>> 30) &&& 0x1FF
  let l2i := (virt >>> 21) &&& 0x1FF
  let l3i := (virt >>> 12) &&& 0x1FF
  if st.tables root l1i &&& 1 = 0 then
    let r := getFreePage st
    if r.1 = 0 then r.2
    else
      mapPageL2 { r.2 with tables := setEntry r.2.tables root l1i (r.1 ||| PT_TABLE ||| 1) }
        r.1 l2i l3i phys flags
  else
    mapPageL2 st (st.tables root l1i &&& 0xFFFFFFFFF000) l2i l3i phys flags

/-- What `handle_fault` does with the trapped access: return normally so
the hardware retries the instruction (`resolved`), or fall through to
`exit()` and kill the process (`killed`). -/
inductive FaultOutcome
  | resolved
  | killed
deriving DecidableEq, Repr

/-- `handle_fault()` (sys.c lines 144-205) on a fault at address `far`
with syndrome `esr`, using `kernel_pgd` at address `pgd`: if the
exception class is a data abort (0x24 kernel / 0x25 user), grab a
physical page; on success map the page-aligned fault address with
privilege-dependent flags and return normally; only when
`get_free_page()` itself returns 0, or the class is not a data abort,
is the process terminated. -/
def handleFault (st : VmmState) (far esr pgd : Nat) : FaultOutcome × VmmState :=
  let ec := esr >>> 26
  if ec = 0x24 ∨ ec = 0x25 then
    let r := getFreePage st
    if r.1 ≠ 0 then
      let virtAligned := far &&& 0xFFFFFFFFFFFFF000
      let flags := if ec = 0x25 then
          MM_RW ||| MM_USER ||| MM_SH ||| (ATTR_NORMAL <<< 2)
        else
          MM_RW ||| MM_KERNEL ||| MM_SH ||| (ATTR_NORMAL <<< 2)
      (.resolved, mapPage r.2 pgd virtAligned r.1 flags)
    else (.killed, r.2)
  else (.killed, st)

/-! ## Scheduler lemmas -/

/-- A slot the selection loop may return: READY or RUNNING. -/
def SlotRunnable (s : KState) (j : Fin 64) : Prop :=
  (s.procs j).state = .READY ∨ (s.procs j).state = .RUNNING

lemma agingPhase_procs_state (s : KState) (i : Fin 64) :
    ((agingPhase s).procs i).state = (s.procs i).state := by
  simp only [agingPhase]
  split
  · split <;> rfl
  · rfl

lemma agingPhase_procs_pid (s : KState) (i : Fin 64) :
    ((agingPhase s).procs i).pid = (s.procs i).pid := by
  simp only [agingPhase]
  split
  · split <;> rfl
  · rfl

lemma agingPhase_procs_blockReason (s : KState) (i : Fin 64) :
    ((agingPhase s).procs i).blockReason = (s.procs i).blockReason := by
  simp only [agingPhase]
  split
  · split <;> rfl
  · rfl

lemma agingPhase_procs_wakeUpTime (s : KState) (i : Fin 64) :
    ((agingPhase s).procs i).wakeUpTime = (s.procs i).wakeUpTime := by
  simp only [agingPhase]
  split
  · split <;> rfl
  · rfl

lemma agingPhase_currentIdx (s : KState) :
    (agingPhase s).currentIdx = s.currentIdx := rfl

lemma agingPhase_sysTimerCount (s : KState) :
    (agingPhase s).sysTimerCount = s.sysTimerCount := rfl

lemma agingPhase_needReschedule (s : KState) :
    (agingPhase s).needReschedule = s.needReschedule := rfl

lemma selectFold_aux (s : KState) (l : List (Fin 64)) (acc : Option (Fin 64) × Int)
    (h : ∀ j, acc.1 = some j → SlotRunnable s j) :
    ∀ j, (l.foldl (selStep s) acc).1 = some j → SlotRunnable s j := by
  induction l generalizing acc with
  | nil => simpa using h
  | cons a t ih =>
      intro j hj
      rw [List.foldl_cons] at hj
      refine ih (selStep s acc a) ?_ j hj
      intro j1 hj1
      by_cases hc : ((s.procs a).state = .READY ∨ (s.procs a).state = .RUNNING) ∧
          (s.procs a).priority < acc.2
      · simp only [selStep, if_pos hc] at hj1
        cases hj1
        exact hc.1
      · simp only [selStep, if_neg hc] at hj1
        exact h j1 hj1

/-- Whatever the selection loop returns is READY or RUNNING. -/
lemma selectFold_runnable (s : KState) (j : Fin 64)
    (h : (selectFold s).1 = some j) : SlotRunnable s j := by
  refine selectFold_aux s (List.finRange 64) (none, 1000) ?_ j h
  intro j1 hj1
  simp at hj1

lemma updProc_procs (s : KState) (i : Fin 64) (p : PCB) (k : Fin 64) :
    (updProc s i p).procs k = if k = i then p else s.procs k := by
  simp [updProc, Function.update_apply]

lemma penalize_procs_state (DQ : Nat) (s : KState) (j i : Fin 64) :
    ((penalize DQ s j).procs i).state = (s.procs i).state := by
  rcases eq_or_ne i j with h | h
  · subst h
    simp only [penalize, updProc]
    rw [Function.update_same]
    split_ifs <;> rfl
  · simp only [penalize, updProc]
    rw [Function.update_noteq h]

lemma penalize_procs_pid (DQ : Nat) (s : KState) (j i : Fin 64) :
    ((penalize DQ s j).procs i).pid = (s.procs i).pid := by
  rcases eq_or_ne i j with h | h
  · subst h
    simp only [penalize, updProc]
    rw [Function.update_same]
    split_ifs <;> rfl
  · simp only [penalize, updProc]
    rw [Function.update_noteq h]

lemma penalize_procs_blockReason (DQ : Nat) (s : KState) (j i : Fin 64) :
    ((penalize DQ s j).procs i).blockReason = (s.procs i).blockReason := by
  rcases eq_or_ne i j with h | h
  · subst h
    simp only [penalize, updProc]
    rw [Function.update_same]
    split_ifs <;> rfl
  · simp only [penalize, updProc]
    rw [Function.update_noteq h]

lemma penalize_procs_wakeUpTime (DQ : Nat) (s : KState) (j i : Fin 64) :
    ((penalize DQ s j).procs i).wakeUpTime = (s.procs i).wakeUpTime := by
  rcases eq_or_ne i j with h | h
  · subst h
    simp only [penalize, updProc]
    rw [Function.update_same]
    split_ifs <;> rfl
  · simp only [penalize, updProc]
    rw [Function.update_noteq h]

lemma penalize_procs_priority_self (DQ : Nat) (s : KState) (j : Fin 64) :
    ((penalize DQ s j).procs j).priority =
      if (s.procs j).priority < 10 then (s.procs j).priority + 2
      else (s.procs j).priority := by
  simp only [penalize, updProc]
  rw [Function.update_same]
  split_ifs <;> rfl

lemma penalize_currentIdx (DQ : Nat) (s : KState) (j : Fin 64) :
    (penalize DQ s j).currentIdx = s.currentIdx := rfl

lemma penalize_sysTimerCount (DQ : Nat) (s : KState) (j : Fin 64) :
    (penalize DQ s j).sysTimerCount = s.sysTimerCount := rfl

lemma penalize_needReschedule (DQ : Nat) (s : KState) (j : Fin 64) :
    (penalize DQ s j).needReschedule = s.needReschedule := rfl

lemma switchTo_currentIdx (s : KState) (j : Fin 64) :
    (switchTo s j).currentIdx = j := by
  simp only [switchTo]
  split
  · rename_i h
    exact h
  · split <;> rfl

/-- Full description of the context-switch phase at each slot: the
selected slot is promoted, the previous RUNNING current is demoted,
everything else is untouched. -/
lemma switchTo_procs (s : KState) (j i : Fin 64) :
    (switchTo s j).procs i =
      (if s.currentIdx = j then s.procs i
       else if i = j then { s.procs i with state := .RUNNING }
       else if i = s.currentIdx ∧ (s.procs s.currentIdx).state = .RUNNING then
         { s.procs i with state := .READY }
       else s.procs i) := by
  by_cases hcj : s.currentIdx = j
  · simp only [switchTo, if_pos hcj]
  · have hjc : j ≠ s.currentIdx := Ne.symm hcj
    rw [if_neg hcj]
    by_cases hrun : (s.procs s.currentIdx).state = .RUNNING
    · simp only [switchTo, if_neg hcj, if_pos hrun, updProc_procs, if_neg hjc]
      by_cases hij : i = j
      · rw [if_pos hij, if_pos hij]
        subst hij
        rfl
      · rw [if_neg hij, if_neg hij]
        by_cases hic : i = s.currentIdx
        · rw [if_pos hic, if_pos ⟨hic, hrun⟩]
          subst hic
          rfl
        · rw [if_neg hic, if_neg (by simp [hic])]
    · simp only [switchTo, if_neg hcj, if_neg hrun, updProc_procs]
      by_cases hij : i = j
      · rw [if_pos hij, if_pos hij]
        subst hij
        rfl
      · rw [if_neg hij, if_neg hij, if_neg (by simp [hrun])]

lemma switchTo_procs_state (s : KState) (j i : Fin 64) :
    ((switchTo s j).procs i).state =
      if s.currentIdx = j then (s.procs i).state
      else if i = j then .RUNNING
      else if i = s.currentIdx ∧ (s.procs s.currentIdx).state = .RUNNING then .READY
      else (s.procs i).state := by
  rw [switchTo_procs]
  split_ifs <;> rfl

lemma switchTo_procs_pid (s : KState) (j i : Fin 64) :
    ((switchTo s j).procs i).pid = (s.procs i).pid := by
  rw [switchTo_procs]
  split_ifs <;> rfl

lemma switchTo_procs_blockReason (s : KState) (j i : Fin 64) :
    ((switchTo s j).procs i).blockReason = (s.procs i).blockReason := by
  rw [switchTo_procs]
  split_ifs <;> rfl

lemma switchTo_procs_wakeUpTime (s : KState) (j i : Fin 64) :
    ((switchTo s j).procs i).wakeUpTime = (s.procs i).wakeUpTime := by
  rw [switchTo_procs]
  split_ifs <;> rfl

lemma switchTo_procs_priority (s : KState) (j i : Fin 64) :
    ((switchTo s j).procs i).priority = (s.procs i).priority := by
  rw [switchTo_procs]
  split_ifs <;> rfl

lemma switchTo_sysTimerCount (s : KState) (j : Fin 64) :
    (switchTo s j).sysTimerCount = s.sysTimerCount := by
  simp only [switchTo]
  split
  · rfl
  · split <;> rfl

lemma switchTo_needReschedule (s : KState) (j : Fin 64) :
    (switchTo s j).needReschedule = s.needReschedule := by
  simp only [switchTo]
  split
  · rfl
  · split <;> rfl

/-- The context-switch phase restores the one-RUNNING invariant from
any state satisfying the scheduler precondition, provided the slot it
was asked to switch to is runnable. -/
lemma switchToInv (s : KState) (j : Fin 64)
    (h1 : ∀ i, (s.procs i).state = .RUNNING → i = s.currentIdx)
    (h2 : (s.procs (0 : Fin 64)).state = .RUNNING ∨ (s.procs (0 : Fin 64)).state = .READY)
    (h3 : ∀ i, (s.procs i).state ≠ .UNUSED → (s.procs i).pid = ((i : Nat) : Int))
    (hj : SlotRunnable s j)
    (h4 : (s.procs s.currentIdx).state = .RUNNING ∨ s.currentIdx ≠ j) :
    Inv (switchTo s j) := by
  refine ⟨?_, ?_, ?_⟩
  · intro i
    rw [switchTo_currentIdx, switchTo_procs_state]
    by_cases hcj : s.currentIdx = j
    · rw [if_pos hcj]
      have hrun : (s.procs s.currentIdx).state = .RUNNING := by
        rcases h4 with h | h
        · exact h
        · exact absurd hcj h
      constructor
      · intro h
        exact (h1 i h).trans hcj
      · intro h
        subst h
        rw [← hcj]
        exact hrun
    · rw [if_neg hcj]
      by_cases hij : i = j
      · simp [hij]
      · rw [if_neg hij]
        constructor
        · intro hst
          by_cases hic : i = s.currentIdx ∧ (s.procs s.currentIdx).state = .RUNNING
          · rw [if_pos hic] at hst
            exact absurd hst (by decide)
          · rw [if_neg hic] at hst
            have he := h1 i hst
            rw [he] at hst
            exact absurd ⟨he, hst⟩ hic
        · intro h
          exact absurd h hij
  · rw [switchTo_procs_state]
    by_cases hcj : s.currentIdx = j
    · rw [if_pos hcj]
      exact h2
    · rw [if_neg hcj]
      by_cases h0j : (0 : Fin 64) = j
      · rw [if_pos h0j]
        exact Or.inl rfl
      · rw [if_neg h0j]
        by_cases h0c : (0 : Fin 64) = s.currentIdx ∧ (s.procs s.currentIdx).state = .RUNNING
        · rw [if_pos h0c]
          exact Or.inr rfl
        · rw [if_neg h0c]
          exact h2
  · intro i hi
    rw [switchTo_procs_pid]
    rw [switchTo_procs_state] at hi
    apply h3
    by_cases hcj : s.currentIdx = j
    · rw [if_pos hcj] at hi
      exact hi
    · rw [if_neg hcj] at hi
      by_cases hij : i = j
      · subst hij
        rcases hj with h | h <;> simp [h]
      · rw [if_neg hij] at hi
        by_cases hic : i = s.currentIdx ∧ (s.procs s.currentIdx).state = .RUNNING
        · rw [← hic.1] at hic
          simp [hic.2]
        · rw [if_neg hic] at hi
          exact hi

/-- Penalty plus switch also restores the invariant: the penalty phase
changes no state, pid or current index. -/
lemma pasInv (DQ : Nat) (s : KState) (j : Fin 64)
    (h1 : ∀ i, (s.procs i).state = .RUNNING → i = s.currentIdx)
    (h2 : (s.procs (0 : Fin 64)).state = .RUNNING ∨ (s.procs (0 : Fin 64)).state = .READY)
    (h3 : ∀ i, (s.procs i).state ≠ .UNUSED → (s.procs i).pid = ((i : Nat) : Int))
    (hj : SlotRunnable s j)
    (h4 : (s.procs s.currentIdx).state = .RUNNING ∨ s.currentIdx ≠ j) :
    Inv (penaltyAndSwitch DQ s j) := by
  unfold penaltyAndSwitch
  refine switchToInv (penalize DQ s j) j ?_ ?_ ?_ ?_ ?_
  · intro i hi
    rw [penalize_procs_state] at hi
    exact h1 i hi
  · rw [penalize_procs_state]
    exact h2
  · intro i hi
    rw [penalize_procs_state] at hi
    rw [penalize_procs_pid]
    exact h3 i hi
  · unfold SlotRunnable
    rw [penalize_procs_state]
    exact hj
  · rw [penalize_currentIdx, penalize_procs_state]
    exact h4

/-- The aging phase (with the flag clear of `schedule`'s first line)
preserves the scheduler precondition. -/
lemma Pre_aging (s : KState) (hP : Pre s) :
    Pre (agingPhase { s with needReschedule := false }) := by
  obtain ⟨h1, h2, h3, h4⟩ := hP
  refine ⟨?_, ?_, ?_, ?_⟩
  · intro i hi
    rw [agingPhase_procs_state] at hi
    exact h1 i hi
  · rw [agingPhase_procs_state]
    exact h2
  · intro i hi
    rw [agingPhase_procs_state] at hi
    rw [agingPhase_procs_pid]
    exact h3 i hi
  · rw [agingPhase_currentIdx, agingPhase_procs_state]
    exact h4

/-- Any `schedule()` call made from a state satisfying the scheduler
precondition re-establishes the full invariant. -/
lemma scheduleInv (DQ : Nat) (s : KState) (hP : Pre s) : Inv (schedule DQ s) := by
  obtain ⟨h1, h2, h3, h4⟩ := Pre_aging s hP
  simp only [schedule]
  split
  · rename_i j hsel
    have hj := selectFold_runnable _ j hsel
    refine pasInv DQ _ j h1 h2 h3 hj ?_
    rcases h4 with h | ⟨_, hbz⟩
    · exact Or.inl h
    · refine Or.inr fun hej => ?_
      unfold SlotRunnable at hj
      rw [← hej] at hj
      rcases hbz with hb | hb <;> rw [hb] at hj <;>
        rcases hj with h | h <;> exact absurd h (by decide)
  · rename_i hsel
    have hcond : ¬(((agingPhase { s with needReschedule := false }).procs
        (0 : Fin 64)).state ≠ .RUNNING ∧
        ((agingPhase { s with needReschedule := false }).procs
        (0 : Fin 64)).state ≠ .READY) := by
      rcases h2 with h | h
      · exact fun hc => hc.1 h
      · exact fun hc => hc.2 h
    rw [if_neg hcond]
    refine pasInv DQ _ (0 : Fin 64) h1 h2 h3 h2.symm ?_
    rcases h4 with h | ⟨hz, _⟩
    · exact Or.inl h
    · refine Or.inr fun he => hz ?_
      rw [he]
      rfl

lemma tickQuantum_procs_fields (s : KState) (i : Fin 64) :
    ((tickQuantum s).procs i).state = (s.procs i).state ∧
    ((tickQuantum s).procs i).pid = (s.procs i).pid ∧
    ((tickQuantum s).procs i).blockReason = (s.procs i).blockReason ∧
    ((tickQuantum s).procs i).wakeUpTime = (s.procs i).wakeUpTime := by
  simp only [tickQuantum]
  split
  · split
    · rcases eq_or_ne i s.currentIdx with hic | hic
      · subst hic
        simp [updProc_procs]
      · simp [updProc_procs, hic]
    · rcases eq_or_ne i s.currentIdx with hic | hic
      · subst hic
        simp [updProc_procs]
      · simp [updProc_procs, hic]
  · exact ⟨rfl, rfl, rfl, rfl⟩

lemma tickQuantum_currentIdx (s : KState) :
    (tickQuantum s).currentIdx = s.currentIdx := by
  simp only [tickQuantum]
  split
  · split <;> rfl
  · rfl

lemma tickQuantum_sysTimerCount (s : KState) :
    (tickQuantum s).sysTimerCount = s.sysTimerCount := by
  simp only [tickQuantum]
  split
  · split <;> rfl
  · rfl

lemma wakeSleepers_procs_state (s : KState) (i : Fin 64) :
    ((wakeSleepers s).procs i).state =
      if (s.procs i).state = .BLOCKED ∧ (s.procs i).blockReason = .SLEEP ∧
          (s.procs i).wakeUpTime ≤ s.sysTimerCount then .READY
      else (s.procs i).state := by
  simp only [wakeSleepers]
  split <;> rfl

lemma wakeSleepers_procs_pid (s : KState) (i : Fin 64) :
    ((wakeSleepers s).procs i).pid = (s.procs i).pid := by
  simp only [wakeSleepers]
  split <;> rfl

/-- Pointwise effect of a full `timer_tick()` on the `state` fields: the
only transitions are BLOCKED/SLEEP wake-ups. -/
lemma timerTick_procs_state (s : KState) (i : Fin 64) :
    ((timerTick s).procs i).state =
      if (s.procs i).state = .BLOCKED ∧ (s.procs i).blockReason = .SLEEP ∧
          (s.procs i).wakeUpTime ≤ s.sysTimerCount + 1 then .READY
      else (s.procs i).state := by
  unfold timerTick
  rw [wakeSleepers_procs_state]
  obtain ⟨e1, _, e3, e4⟩ :=
    tickQuantum_procs_fields { s with sysTimerCount := s.sysTimerCount + 1 } i
  rw [e1, e3, e4, tickQuantum_sysTimerCount]

lemma timerTick_procs_pid (s : KState) (i : Fin 64) :
    ((timerTick s).procs i).pid = (s.procs i).pid := by
  unfold timerTick
  rw [wakeSleepers_procs_pid]
  obtain ⟨_, e2, _, _⟩ :=
    tickQuantum_procs_fields { s with sysTimerCount := s.sysTimerCount + 1 } i
  rw [e2]

lemma timerTick_currentIdx (s : KState) :
    (timerTick s).currentIdx = s.currentIdx := by
  unfold timerTick
  show (tickQuantum _).currentIdx = _
  rw [tickQuantum_currentIdx]

/-- `timer_tick` preserves the invariant. -/
lemma tickInv (s : KState) (h : Inv s) : Inv (timerTick s) := by
  obtain ⟨h1, h2, h3⟩ := h
  refine ⟨?_, ?_, ?_⟩
  · intro i
    rw [timerTick_currentIdx, timerTick_procs_state]
    split_ifs with hc
    · constructor
      · intro h
        exact absurd h (by decide)
      · intro h
        have hr := (h1 i).mpr h
        rw [hc.1] at hr
        exact absurd hr (by decide)
    · exact h1 i
  · rw [timerTick_procs_state]
    split_ifs with hc
    · exact Or.inr rfl
    · exact h2
  · intro i hi
    rw [timerTick_procs_pid]
    rw [timerTick_procs_state] at hi
    apply h3
    split_ifs at hi with hc
    · rw [hc.1]
      decide
    · exact hi

/-- Marking the current (non-idle) process BLOCKED as `sleep()` does
establishes the scheduler precondition. -/
lemma Pre_blockCurrent (s : KState) (ticks : Nat) (h : Inv s)
    (h0 : (s.currentIdx : Nat) ≠ 0) : Pre (blockCurrent s ticks) := by
  obtain ⟨h1, h2, h3⟩ := h
  have hz : (0 : Fin 64) ≠ s.currentIdx := fun he => h0 (by rw [← he]; rfl)
  refine ⟨?_, ?_, ?_, ?_⟩
  · intro i hi
    rcases eq_or_ne i s.currentIdx with hic | hic
    · exact hic
    · simp only [blockCurrent, updProc_procs, if_neg hic] at hi
      exact absurd ((h1 i).mp hi) hic
  · simp only [blockCurrent, updProc_procs, if_neg hz]
    exact h2
  · intro i hi
    rcases eq_or_ne i s.currentIdx with hic | hic
    · subst hic
      simp only [blockCurrent, updProc_procs, if_pos rfl] at hi ⊢
      have hr : (s.procs s.currentIdx).state = .RUNNING := (h1 s.currentIdx).mpr rfl
      exact h3 s.currentIdx (by rw [hr]; decide)
    · simp only [blockCurrent, updProc_procs, if_neg hic] at hi ⊢
      exact h3 i hi
  · refine Or.inr ⟨h0, Or.inl ?_⟩
    show ((blockCurrent s ticks).procs s.currentIdx).state = .BLOCKED
    simp [blockCurrent, updProc_procs]

/-- Marking the current (non-idle) process ZOMBIE as `exit()` does
establishes the scheduler precondition. -/
lemma Pre_zombie (s : KState) (h : Inv s) (h0 : (s.currentIdx : Nat) ≠ 0) :
    Pre (updProc s s.currentIdx { s.procs s.currentIdx with state := .ZOMBIE }) := by
  obtain ⟨h1, h2, h3⟩ := h
  have hz : (0 : Fin 64) ≠ s.currentIdx := fun he => h0 (by rw [← he]; rfl)
  refine ⟨?_, ?_, ?_, ?_⟩
  · intro i hi
    rcases eq_or_ne i s.currentIdx with hic | hic
    · exact hic
    · simp only [updProc_procs, if_neg hic] at hi
      exact absurd ((h1 i).mp hi) hic
  · simp only [updProc_procs, if_neg hz]
    exact h2
  · intro i hi
    rcases eq_or_ne i s.currentIdx with hic | hic
    · subst hic
      simp only [updProc_procs, if_pos rfl] at hi ⊢
      have hr : (s.procs s.currentIdx).state = .RUNNING := (h1 s.currentIdx).mpr rfl
      exact h3 s.currentIdx (by rw [hr]; decide)
    · simp only [updProc_procs, if_neg hic] at hi ⊢
      exact h3 i hi
  · refine Or.inr ⟨h0, Or.inr ?_⟩
    show ((updProc s s.currentIdx
      { s.procs s.currentIdx with state := .ZOMBIE }).procs s.currentIdx).state = .ZOMBIE
    simp [updProc_procs]

/-- Every kernel step preserves the invariant. -/
lemma stepInv (DQ : Nat) (s t : KState) (h : Inv s) (hst : Step DQ s t) : Inv t := by
  cases hst with
  | sched =>
      refine scheduleInv DQ s ⟨fun i hi => (h.1 i).mp hi, h.2.1, h.2.2, ?_⟩
      exact Or.inl ((h.1 s.currentIdx).mpr rfl)
  | tick => exact tickInv s h
  | sleeps ticks h0 =>
      exact scheduleInv DQ _ (Pre_blockCurrent s ticks h h0)
  | exits h0 =>
      exact scheduleInv DQ _ (Pre_zombie s h h0)

lemma runnable_not_bzu {p : PState} (h : p = .READY ∨ p = .RUNNING) :
    p ≠ .BLOCKED ∧ p ≠ .ZOMBIE ∧ p ≠ .UNUSED := by
  rcases h with h | h <;> subst h <;> exact ⟨by decide, by decide, by decide⟩

/-- The slot picked by the selection phase (including the idle fallback)
is never BLOCKED, ZOMBIE or UNUSED, in any state whose idle slot is
runnable; aging does not change any `state` field, so the property can
be read off the pre-`schedule` state. -/
lemma scheduleSelect_runnable (s : KState)
    (h0 : (s.procs (0 : Fin 64)).state = .RUNNING ∨ (s.procs (0 : Fin 64)).state = .READY) :
    SlotRunnable s (scheduleSelect s) := by
  unfold scheduleSelect
  split
  · rename_i j hsel
    have hj := selectFold_runnable _ j hsel
    unfold SlotRunnable at hj ⊢
    rw [agingPhase_procs_state] at hj
    exact hj
  · exact h0.symm

/-- Claim C3: across every `schedule()`, `sleep()`, `exit()` and
`timer_tick()` step, exactly one PCB is in state RUNNING (the current
one), and the scheduler never selects a PCB whose state is BLOCKED,
ZOMBIE or UNUSED; both facts hold from the initial state of
`init_process_system` onwards.  The `sleep`/`exit` steps carry the
side condition that the caller is not the idle process, whose body
(the kernel idle loop) contains no `sleep`/`exit` call. -/
theorem C3_exactly_one_running (DQ : Nat) :
    (∀ s t, Inv s → Step DQ s t → Inv t) ∧
    (∀ s : KState, (s.procs (0 : Fin 64)).state = .RUNNING ∨
        (s.procs (0 : Fin 64)).state = .READY →
      (s.procs (scheduleSelect s)).state ≠ .BLOCKED ∧
      (s.procs (scheduleSelect s)).state ≠ .ZOMBIE ∧
      (s.procs (scheduleSelect s)).state ≠ .UNUSED) ∧
    Inv initState := by
  refine ⟨stepInv DQ, ?_, ?_⟩
  · intro s h0
    exact runnable_not_bzu (scheduleSelect_runnable s h0)
  · refine ⟨?_, ?_, ?_⟩
    · intro i
      constructor
      · intro h
        by_contra hne
        have hne0 : ¬ i = (0 : Fin 64) := hne
        simp [initState, updProc_procs, Function.update_apply, hne0, zeroPCB] at h
      · intro h
        subst h
        rfl
    · exact Or.inl rfl
    · intro i hi
      by_cases h : i = (0 : Fin 64)
      · subst h
        rfl
      · simp [initState, Function.update_apply, h, zeroPCB] at hi

/-- Witness for C3: one concrete invariant-preservation step (a timer
tick from the initial state), with the invariant hypothesis discharged
by evaluation. -/
theorem C3_exactly_one_running_witness : Inv (timerTick initState) :=
  (C3_exactly_one_running 5).1 initState (timerTick initState) (by decide)
    (Step.tick initState)

/-! ## Quantum exactness (claim C5) -/

lemma wakeSleepers_procs_of_not_blocked (t : KState) (i : Fin 64)
    (h : (t.procs i).state ≠ .BLOCKED) :
    (wakeSleepers t).procs i = t.procs i := by
  simp only [wakeSleepers]
  rw [if_neg]
  intro hc
  exact h hc.1

lemma wakeSleepers_currentIdx (t : KState) :
    (wakeSleepers t).currentIdx = t.currentIdx := rfl

lemma wakeSleepers_needReschedule (t : KState) :
    (wakeSleepers t).needReschedule = t.needReschedule := rfl

/-- Effect of one `timer_tick` on a RUNNING, non-idle current process:
the tick decrements its quantum, raises the deferred flag exactly when
the decremented quantum is ≤ 0, and performs no context switch. -/
lemma timerTick_current_desc (s : KState)
    (hrun : (s.procs s.currentIdx).state = .RUNNING)
    (hpid : 0 < (s.procs s.currentIdx).pid) :
    (timerTick s).currentIdx = s.currentIdx ∧
    ((timerTick s).procs s.currentIdx).state = .RUNNING ∧
    ((timerTick s).procs s.currentIdx).pid = (s.procs s.currentIdx).pid ∧
    ((timerTick s).procs s.currentIdx).quantum = (s.procs s.currentIdx).quantum - 1 ∧
    (timerTick s).needReschedule =
      (if (s.procs s.currentIdx).quantum - 1 ≤ 0 then true else s.needReschedule) := by
  have hq : tickQuantum { s with sysTimerCount := s.sysTimerCount + 1 } =
      { updProc { s with sysTimerCount := s.sysTimerCount + 1 } s.currentIdx
          { s.procs s.currentIdx with
            cpuTime := (s.procs s.currentIdx).cpuTime + 1
            quantum := (s.procs s.currentIdx).quantum - 1 } with
        needReschedule := if (s.procs s.currentIdx).quantum - 1 ≤ 0 then true
          else s.needReschedule } := by
    simp only [tickQuantum]
    rw [if_pos hrun]
    rw [if_pos hpid]
  have hcur : ((tickQuantum { s with sysTimerCount := s.sysTimerCount + 1 }).procs
      s.currentIdx) = { s.procs s.currentIdx with
        cpuTime := (s.procs s.currentIdx).cpuTime + 1
        quantum := (s.procs s.currentIdx).quantum - 1 } := by
    rw [hq]
    show (Function.update _ _ _ _) = _
    rw [Function.update_same]
  have hnb : ((tickQuantum { s with sysTimerCount := s.sysTimerCount + 1 }).procs
      s.currentIdx).state ≠ .BLOCKED := by
    rw [hcur]
    show (s.procs s.currentIdx).state ≠ .BLOCKED
    rw [hrun]
    decide
  have hw := wakeSleepers_procs_of_not_blocked _ s.currentIdx hnb
  refine ⟨?_, ?_, ?_, ?_, ?_⟩
  · show (wakeSleepers _).currentIdx = _
    rw [wakeSleepers_currentIdx, hq]
    rfl
  · show ((wakeSleepers _).procs s.currentIdx).state = _
    rw [hw, hcur]
    exact hrun
  · show ((wakeSleepers _).procs s.currentIdx).pid = _
    rw [hw, hcur]
  · show ((wakeSleepers _).procs s.currentIdx).quantum = _
    rw [hw, hcur]
  · show (wakeSleepers _).needReschedule = _
    rw [wakeSleepers_needReschedule, hq]

/-- A timer tick never promotes or demotes any slot: the RUNNING slots
are exactly preserved (the tick never calls `schedule()`). -/
lemma timerTick_no_switch (t : KState) (i : Fin 64) :
    ((timerTick t).procs i).state = .RUNNING ↔ (t.procs i).state = .RUNNING := by
  rw [timerTick_procs_state]
  split_ifs with hc
  · constructor
    · intro h
      exact absurd h (by decide)
    · intro h
      rw [hc.1] at h
      exact absurd h (by decide)
  · exact Iff.rfl

/-- Iterated ticks over a continuously running non-idle process: after
`k ≤ DQ` ticks the quantum is `DQ - k` and the deferred-reschedule
flag is raised exactly when `DQ ≤ k`. -/
lemma tickIter (DQ : Nat) (hDQ : 0 < DQ) (s : KState)
    (hrun : (s.procs s.currentIdx).state = .RUNNING)
    (hpid : 0 < (s.procs s.currentIdx).pid)
    (hq : (s.procs s.currentIdx).quantum = (DQ : Int))
    (hflag : s.needReschedule = false) :
    ∀ k, k ≤ DQ →
      (timerTick^[k] s).currentIdx = s.currentIdx ∧
      ((timerTick^[k] s).procs s.currentIdx).state = .RUNNING ∧
      ((timerTick^[k] s).procs s.currentIdx).pid = (s.procs s.currentIdx).pid ∧
      ((timerTick^[k] s).procs s.currentIdx).quantum = (DQ : Int) - (k : Int) ∧
      (timerTick^[k] s).needReschedule = decide (DQ ≤ k) := by
  intro k
  induction k with
  | zero =>
      intro _
      simp only [Function.iterate_zero_apply]
      refine ⟨trivial, hrun, trivial, by rw [hq]; simp, ?_⟩
      rw [hflag]
      symm
      exact decide_eq_false (by omega)
  | succ k ih =>
      intro hk
      have hk' : k ≤ DQ := by omega
      obtain ⟨e1, e2, e3, e4, e5⟩ := ih hk'
      rw [Function.iterate_succ_apply']
      have hrun' : ((timerTick^[k] s).procs (timerTick^[k] s).currentIdx).state =
          .RUNNING := by
        rw [e1]
        exact e2
      have hpid' : 0 < ((timerTick^[k] s).procs (timerTick^[k] s).currentIdx).pid := by
        rw [e1, e3]
        exact hpid
      obtain ⟨d1, d2, d3, d4, d5⟩ := timerTick_current_desc (timerTick^[k] s) hrun' hpid'
      rw [e1] at d2 d3 d4 d5
      refine ⟨?_, d2, ?_, ?_, ?_⟩
      · rw [d1, e1]
      · rw [d3, e3]
      · rw [d4, e4]
        push_cast
        ring
      · rw [d5, e4, e5]
        rcases le_or_lt DQ (k + 1) with hle | hlt
        · rw [if_pos (by omega)]
          exact (decide_eq_true hle).symm
        · rw [if_neg (by omega)]
          rw [decide_eq_false (by omega), decide_eq_false (by omega)]

/-- Claim C5: starting from the selection of a non-idle process (current
RUNNING with `pid > 0`, a fresh quantum `DQ = DEFAULT_QUANTUM > 0`, and
the deferred flag just cleared by `schedule`), the deferred-reschedule
flag stays down for the first `DQ - 1` consecutive timer ticks and is
raised by quantum exhaustion at exactly the `DQ`-th tick; moreover
`timer_tick` itself never switches context (the current index and the
RUNNING states are untouched) — the switch is left to the
interrupt-return path. -/
theorem C5_quantum_exact (DQ : Nat) (hDQ : 0 < DQ) (s : KState)
    (hrun : (s.procs s.currentIdx).state = .RUNNING)
    (hpid : 0 < (s.procs s.currentIdx).pid)
    (hq : (s.procs s.currentIdx).quantum = (DQ : Int))
    (hflag : s.needReschedule = false) :
    (∀ k, k < DQ → (timerTick^[k] s).needReschedule = false) ∧
    (timerTick^[DQ] s).needReschedule = true ∧
    (∀ t : KState, (timerTick t).currentIdx = t.currentIdx) ∧
    (∀ (t : KState) (i : Fin 64),
      ((timerTick t).procs i).state = .RUNNING ↔ (t.procs i).state = .RUNNING) := by
  refine ⟨?_, ?_, timerTick_currentIdx, timerTick_no_switch⟩
  · intro k hk
    have := (tickIter DQ hDQ s hrun hpid hq hflag k (le_of_lt hk)).2.2.2.2
    rw [this]
    exact decide_eq_false (by omega)
  · have := (tickIter DQ hDQ s hrun hpid hq hflag DQ le_rfl).2.2.2.2
    rw [this]
    exact decide_eq_true le_rfl

/-- Concrete state for the C5 witness: the shell-like process in slot 1
is RUNNING with a fresh quantum of 3 ticks, the idle process is READY. -/
def C5state : KState :=
  { procs := fun i =>
      if i = (1 : Fin 64) then
        { zeroPCB with
          state := .RUNNING
          pid := 1
          priority := 5
          quantum := 3 }
      else if i = (0 : Fin 64) then { zeroPCB with state := .READY }
      else zeroPCB
    currentIdx := (1 : Fin 64)
    sysTimerCount := 0
    needReschedule := false }

/-- Witness for C5 at `DEFAULT_QUANTUM = 3`: two ticks leave the flag
down, the third raises it. -/
theorem C5_quantum_exact_witness :
    (timerTick^[2] C5state).needReschedule = false ∧
    (timerTick^[3] C5state).needReschedule = true :=
  ⟨(C5_quantum_exact 3 (by decide) C5state (by decide) (by decide) (by decide)
      (by decide)).1 2 (by decide),
   (C5_quantum_exact 3 (by decide) C5state (by decide) (by decide) (by decide)
      (by decide)).2.1⟩

/-! ## Sleep correctness (claim C6) -/

lemma agingPhase_procs_of_not_ready (x : KState) (p : Fin 64)
    (h : (x.procs p).state ≠ .READY) : (agingPhase x).procs p = x.procs p := by
  simp only [agingPhase]
  rw [if_neg]
  intro hc
  exact h hc.1

lemma penalize_procs_noteq (DQ : Nat) (x : KState) (j i : Fin 64) (h : i ≠ j) :
    (penalize DQ x j).procs i = x.procs i := by
  simp only [penalize, updProc_procs]
  rw [if_neg h]

lemma wakeSleepers_procs_blockReason (s : KState) (i : Fin 64) :
    ((wakeSleepers s).procs i).blockReason =
      if (s.procs i).state = .BLOCKED ∧ (s.procs i).blockReason = .SLEEP ∧
          (s.procs i).wakeUpTime ≤ s.sysTimerCount then .NONE
      else (s.procs i).blockReason := by
  simp only [wakeSleepers]
  split <;> rfl

lemma wakeSleepers_procs_wakeUpTime (s : KState) (i : Fin 64) :
    ((wakeSleepers s).procs i).wakeUpTime = (s.procs i).wakeUpTime := by
  simp only [wakeSleepers]
  split <;> rfl

lemma timerTick_procs_blockReason (s : KState) (i : Fin 64) :
    ((timerTick s).procs i).blockReason =
      if (s.procs i).state = .BLOCKED ∧ (s.procs i).blockReason = .SLEEP ∧
          (s.procs i).wakeUpTime ≤ s.sysTimerCount + 1 then .NONE
      else (s.procs i).blockReason := by
  unfold timerTick
  rw [wakeSleepers_procs_blockReason]
  obtain ⟨e1, _, e3, e4⟩ :=
    tickQuantum_procs_fields { s with sysTimerCount := s.sysTimerCount + 1 } i
  rw [e1, e3, e4, tickQuantum_sysTimerCount]

lemma timerTick_procs_wakeUpTime (s : KState) (i : Fin 64) :
    ((timerTick s).procs i).wakeUpTime = (s.procs i).wakeUpTime := by
  unfold timerTick
  rw [wakeSleepers_procs_wakeUpTime]
  exact (tickQuantum_procs_fields { s with sysTimerCount := s.sysTimerCount + 1 } i).2.2.2

lemma timerTick_sysTimerCount (s : KState) :
    (timerTick s).sysTimerCount = s.sysTimerCount + 1 := by
  unfold timerTick
  show (tickQuantum _).sysTimerCount = _
  rw [tickQuantum_sysTimerCount]

lemma schedule_sysTimerCount (DQ : Nat) (s : KState) :
    (schedule DQ s).sysTimerCount = s.sysTimerCount := by
  simp only [schedule]
  split
  · unfold penaltyAndSwitch
    rw [switchTo_sysTimerCount, penalize_sysTimerCount]
    rfl
  · unfold penaltyAndSwitch
    rw [switchTo_sysTimerCount, penalize_sysTimerCount]
    split <;> rfl

/-- The tick counter never decreases along a kernel step. -/
lemma step_timer_mono (DQ : Nat) {s t : KState} (hst : Step DQ s t) :
    s.sysTimerCount ≤ t.sysTimerCount := by
  cases hst with
  | sched => rw [schedule_sysTimerCount]
  | tick =>
      rw [timerTick_sysTimerCount]
      omega
  | sleeps ticks h0 =>
      show _ ≤ (schedule DQ (blockCurrent s ticks)).sysTimerCount
      rw [schedule_sysTimerCount]
      exact le_rfl
  | exits h0 =>
      show _ ≤ (schedule DQ _).sysTimerCount
      rw [schedule_sysTimerCount]
      exact le_rfl

/-- Penalty/switch towards a slot `j ≠ p` leaves a BLOCKED slot `p`
untouched and makes `j` (not `p`) current. -/
lemma pas_blocked_untouched (DQ : Nat) (x : KState) (j p : Fin 64)
    (hpj : p ≠ j) (hbx : (x.procs p).state = .BLOCKED) :
    (penaltyAndSwitch DQ x j).procs p = x.procs p ∧
    (penaltyAndSwitch DQ x j).currentIdx = j := by
  unfold penaltyAndSwitch
  refine ⟨?_, switchTo_currentIdx _ _⟩
  rw [switchTo_procs]
  have hpen : (penalize DQ x j).procs p = x.procs p := penalize_procs_noteq _ _ _ _ hpj
  by_cases hcj : (penalize DQ x j).currentIdx = j
  · rw [if_pos hcj]
    exact hpen
  · rw [if_neg hcj, if_neg hpj]
    by_cases hpc : p = (penalize DQ x j).currentIdx ∧
        ((penalize DQ x j).procs (penalize DQ x j).currentIdx).state = .RUNNING
    · exfalso
      obtain ⟨hpc1, hpc2⟩ := hpc
      rw [← hpc1, hpen, hbx] at hpc2
      exact absurd hpc2 (by decide)
    · rw [if_neg hpc]
      exact hpen

/-- A full `schedule()` never touches the PCB of a BLOCKED non-idle slot
`p` and never makes it current: the selection loop skips BLOCKED slots
and the fallback selects the idle slot 0. -/
lemma schedule_blocked_untouched (DQ : Nat) (s : KState) (p : Fin 64)
    (hb : (s.procs p).state = .BLOCKED) (hp : (p : Nat) ≠ 0) :
    (schedule DQ s).procs p = s.procs p ∧ (schedule DQ s).currentIdx ≠ p := by
  have hpfin : p ≠ (0 : Fin 64) := fun h => hp (by rw [h]; rfl)
  simp only [schedule]
  set s1 := agingPhase { s with needReschedule := false } with hs1
  have haging : s1.procs p = s.procs p := by
    rw [hs1]
    apply agingPhase_procs_of_not_ready
    show (s.procs p).state ≠ .READY
    rw [hb]
    decide
  have hb1 : (s1.procs p).state = .BLOCKED := by
    rw [haging]
    exact hb
  split
  · rename_i j hsel
    have hj := selectFold_runnable _ j hsel
    have hjp : p ≠ j := by
      intro h
      subst h
      unfold SlotRunnable at hj
      rw [hb1] at hj
      rcases hj with h | h <;> exact absurd h (by decide)
    obtain ⟨ha, hc⟩ := pas_blocked_untouched DQ s1 j p hjp hb1
    refine ⟨?_, ?_⟩
    · rw [ha, haging]
    · rw [hc]
      exact fun h => hjp h.symm
  · by_cases hheal : (s1.procs (0 : Fin 64)).state ≠ .RUNNING ∧
        (s1.procs (0 : Fin 64)).state ≠ .READY
    · rw [if_pos hheal]
      have hs2p : (updProc s1 (0 : Fin 64)
          { s1.procs (0 : Fin 64) with state := .READY }).procs p = s1.procs p := by
        rw [updProc_procs, if_neg hpfin]
      obtain ⟨ha, hc⟩ := pas_blocked_untouched DQ _ (0 : Fin 64) p hpfin
        (by rw [hs2p]; exact hb1)
      refine ⟨?_, ?_⟩
      · rw [ha, hs2p, haging]
      · rw [hc]
        exact fun h => hpfin h.symm
    · rw [if_neg hheal]
      obtain ⟨ha, hc⟩ := pas_blocked_untouched DQ s1 (0 : Fin 64) p hpfin hb1
      refine ⟨?_, ?_⟩
      · rw [ha, haging]
      · rw [hc]
        exact fun h => hpfin h.symm

/-- A non-idle process that went to sleep with absolute wake-up time `w`:
BLOCKED for reason SLEEP, wake-up time `w`, and not the current
process. -/
def Sleeping (p : Fin 64) (w : Nat) (s : KState) : Prop :=
  (s.procs p).state = .BLOCKED ∧ (s.procs p).blockReason = .SLEEP ∧
  (s.procs p).wakeUpTime = w ∧ s.currentIdx ≠ p

/-- `sleep(n)` called by the current non-idle process `p` at tick `T`
leaves `p` sleeping with wake-up time `T + n` (and some other process
current). -/
lemma sleepStep_establishes (DQ n : Nat) (s0 : KState) (p : Fin 64)
    (hc : s0.currentIdx = p) (hp : (p : Nat) ≠ 0) :
    Sleeping p (s0.sysTimerCount + n) (sleepStep DQ n s0) := by
  have hcb : (blockCurrent s0 n).procs p = { s0.procs s0.currentIdx with
      wakeUpTime := s0.sysTimerCount + n
      state := .BLOCKED
      blockReason := .SLEEP } := by
    rw [← hc]
    simp only [blockCurrent, updProc_procs]
    simp
  obtain ⟨ha, hcur⟩ := schedule_blocked_untouched DQ (blockCurrent s0 n) p
    (by rw [hcb]) hp
  unfold sleepStep
  exact ⟨by rw [ha, hcb], by rw [ha, hcb], by rw [ha, hcb], hcur⟩

/-- Each kernel step taken strictly before the wake-up time preserves
the sleeping configuration. -/
lemma sleeping_step (DQ : Nat) (p : Fin 64) (w : Nat) (hp : (p : Nat) ≠ 0)
    {s t : KState} (hJ : Sleeping p w s) (hst : Step DQ s t)
    (ht : t.sysTimerCount < w) : Sleeping p w t := by
  obtain ⟨hb, hr, hw, hc⟩ := hJ
  cases hst with
  | sched =>
      obtain ⟨ha, hcur⟩ := schedule_blocked_untouched DQ s p hb hp
      exact ⟨by rw [ha]; exact hb, by rw [ha]; exact hr, by rw [ha]; exact hw, hcur⟩
  | tick =>
      have htm : (timerTick s).sysTimerCount = s.sysTimerCount + 1 :=
        timerTick_sysTimerCount s
      have hnw : ¬ (s.procs p).wakeUpTime ≤ s.sysTimerCount + 1 := by
        rw [hw]
        omega
      refine ⟨?_, ?_, ?_, ?_⟩
      · rw [timerTick_procs_state, if_neg (by intro h; exact hnw h.2.2)]
        exact hb
      · rw [timerTick_procs_blockReason, if_neg (by intro h; exact hnw h.2.2)]
        exact hr
      · rw [timerTick_procs_wakeUpTime]
        exact hw
      · rw [timerTick_currentIdx]
        exact hc
  | sleeps ticks h0 =>
      show Sleeping p w (schedule DQ (blockCurrent s ticks))
      have hbc : (blockCurrent s ticks).procs p = s.procs p := by
        simp only [blockCurrent, updProc_procs]
        rw [if_neg (fun h => hc h.symm)]
      obtain ⟨ha, hcur⟩ := schedule_blocked_untouched DQ (blockCurrent s ticks) p
        (by rw [hbc]; exact hb) hp
      exact ⟨by rw [ha, hbc]; exact hb, by rw [ha, hbc]; exact hr,
        by rw [ha, hbc]; exact hw, hcur⟩
  | exits h0 =>
      show Sleeping p w (schedule DQ (updProc s s.currentIdx
        { s.procs s.currentIdx with state := .ZOMBIE }))
      have hbc : (updProc s s.currentIdx
          { s.procs s.currentIdx with state := .ZOMBIE }).procs p = s.procs p := by
        rw [updProc_procs]
        rw [if_neg (fun h => hc h.symm)]
      obtain ⟨ha, hcur⟩ := schedule_blocked_untouched DQ _ p
        (by rw [hbc]; exact hb) hp
      exact ⟨by rw [ha, hbc]; exact hb, by rw [ha, hbc]; exact hr,
        by rw [ha, hbc]; exact hw, hcur⟩

/-- The sleeping configuration persists along every reachable state whose
tick counter is still below the wake-up time. -/
lemma sleeping_reach (DQ : Nat) (p : Fin 64) (w : Nat) (hp : (p : Nat) ≠ 0)
    {s0 s : KState} (hJ : Sleeping p w s0)
    (hr : Relation.ReflTransGen (Step DQ) s0 s) (hs : s.sysTimerCount < w) :
    Sleeping p w s := by
  induction hr with
  | refl => exact hJ
  | tail hab hbc ih =>
      rename_i b c
      have hbw : b.sysTimerCount < w :=
        lt_of_le_of_lt (step_timer_mono DQ hbc) hs
      exact sleeping_step DQ p w hp (ih hbw) hbc hs

/-- Claim C6: a process `p ≠ 0` that calls `sleep(n)` when the tick
counter is `T` is BLOCKED (hence never selected — it is never the
current process) in every reachable state whose tick counter is below
`T + n`, and the timer tick that carries the counter to `T + n` (or
past it) promotes it back to READY. -/
theorem C6_sleep_correct (DQ n : Nat) (s0 : KState) (p : Fin 64)
    (hc : s0.currentIdx = p) (hp : (p : Nat) ≠ 0) :
    Sleeping p (s0.sysTimerCount + n) (sleepStep DQ n s0) ∧
    (∀ s, Relation.ReflTransGen (Step DQ) (sleepStep DQ n s0) s →
      s.sysTimerCount < s0.sysTimerCount + n →
      (s.procs p).state = .BLOCKED ∧ s.currentIdx ≠ p) ∧
    (∀ s : KState, Sleeping p (s0.sysTimerCount + n) s →
      s0.sysTimerCount + n ≤ s.sysTimerCount + 1 →
      ((timerTick s).procs p).state = .READY) := by
  have hest := sleepStep_establishes DQ n s0 p hc hp
  refine ⟨hest, ?_, ?_⟩
  · intro s hrch hlt
    have := sleeping_reach DQ p _ hp hest hrch hlt
    exact ⟨this.1, this.2.2.2⟩
  · intro s hS hge
    rw [timerTick_procs_state, if_pos ⟨hS.1, hS.2.1, by rw [hS.2.2.1]; exact hge⟩]

/-- Witness for C6: the concrete C5 state, whose slot-1 process calls
`sleep(2)` at tick 0. -/
theorem C6_sleep_correct_witness :
    Sleeping (1 : Fin 64) (C5state.sysTimerCount + 2) (sleepStep 3 2 C5state) ∧
    (∀ s, Relation.ReflTransGen (Step 3) (sleepStep 3 2 C5state) s →
      s.sysTimerCount < C5state.sysTimerCount + 2 →
      (s.procs (1 : Fin 64)).state = .BLOCKED ∧ s.currentIdx ≠ (1 : Fin 64)) ∧
    (∀ s : KState, Sleeping (1 : Fin 64) (C5state.sysTimerCount + 2) s →
      C5state.sysTimerCount + 2 ≤ s.sysTimerCount + 1 →
      ((timerTick s).procs (1 : Fin 64)).state = .READY) :=
  C6_sleep_correct 3 2 C5state (1 : Fin 64) rfl (by decide)

/-! ## Selection penalty (claim C7) -/

lemma pas_priority_self (DQ : Nat) (x : KState) (j : Fin 64) :
    ((penaltyAndSwitch DQ x j).procs j).priority =
      if (x.procs j).priority < 10 then (x.procs j).priority + 2
      else (x.procs j).priority := by
  unfold penaltyAndSwitch
  rw [switchTo_procs_priority, penalize_procs_priority_self]

/-- State in which the scheduler selects a process whose priority has
already climbed to the threshold 10: only the idle process, penalised
five times in a row without intervening aging, is runnable. -/
def C7state : KState :=
  { procs := fun i =>
      if i = (0 : Fin 64) then { zeroPCB with state := .RUNNING, priority := 10 }
      else zeroPCB
    currentIdx := (0 : Fin 64)
    sysTimerCount := 0
    needReschedule := false }

/-- Counterexample to claim C7 as stated: at `C7state` the scheduler
selects slot 0 with (post-aging) priority 10, and `schedule` leaves its
priority at 10 — no strict increase by the penalty takes place. -/
theorem C7_counterexample :
    scheduleSelect C7state = (0 : Fin 64) ∧
    ((agingPhase { C7state with needReschedule := false }).procs
      (scheduleSelect C7state)).priority = 10 ∧
    ((schedule 5 C7state).procs (scheduleSelect C7state)).priority = 10 := by
  refine ⟨by decide, by decide, by decide⟩

/-- Claim C7 amended: the selected process's (post-aging) priority is
increased by the fixed penalty 2 exactly when it is below 10 and is
left unchanged otherwise; consequently it never decreases and never
exceeds `max pre 11` (in particular a priority of 9 becomes 11, one
past the threshold 10). -/
theorem C7_penalty_amended (DQ : Nat) (s : KState) :
    ((schedule DQ s).procs (scheduleSelect s)).priority =
      (if ((agingPhase { s with needReschedule := false }).procs
            (scheduleSelect s)).priority < 10 then
        ((agingPhase { s with needReschedule := false }).procs
          (scheduleSelect s)).priority + 2
      else ((agingPhase { s with needReschedule := false }).procs
        (scheduleSelect s)).priority) ∧
    ((agingPhase { s with needReschedule := false }).procs
        (scheduleSelect s)).priority ≤
      ((schedule DQ s).procs (scheduleSelect s)).priority ∧
    ((schedule DQ s).procs (scheduleSelect s)).priority ≤
      max ((agingPhase { s with needReschedule := false }).procs
        (scheduleSelect s)).priority 11 := by
  rcases hsel : (selectFold (agingPhase { s with needReschedule := false })).1 with _ | j
  · have hjsel : scheduleSelect s = (0 : Fin 64) := by
      unfold scheduleSelect
      rw [hsel]
    have hsched : ((schedule DQ s).procs (0 : Fin 64)).priority =
        if ((agingPhase { s with needReschedule := false }).procs
            (0 : Fin 64)).priority < 10 then
          ((agingPhase { s with needReschedule := false }).procs
            (0 : Fin 64)).priority + 2
        else ((agingPhase { s with needReschedule := false }).procs
          (0 : Fin 64)).priority := by
      simp only [schedule]
      rw [hsel]
      rw [pas_priority_self]
      split
      · rw [updProc_procs]
        simp
      · rfl
    rw [hjsel]
    refine ⟨hsched, ?_, ?_⟩
    · rw [hsched]
      split_ifs <;> omega
    · rw [hsched]
      split_ifs with h
      · exact le_trans (by omega) (le_max_right _ _)
      · exact le_max_left _ _
  · have hjsel : scheduleSelect s = j := by
      unfold scheduleSelect
      rw [hsel]
    have hsched : ((schedule DQ s).procs j).priority =
        if ((agingPhase { s with needReschedule := false }).procs j).priority < 10 then
          ((agingPhase { s with needReschedule := false }).procs j).priority + 2
        else ((agingPhase { s with needReschedule := false }).procs j).priority := by
      simp only [schedule]
      rw [hsel]
      rw [pas_priority_self]
    rw [hjsel]
    refine ⟨hsched, ?_, ?_⟩
    · rw [hsched]
      split_ifs <;> omega
    · rw [hsched]
      split_ifs with h
      · exact le_trans (by omega) (le_max_right _ _)
      · exact le_max_left _ _

/-! ## Semaphore behaviour (claims C1 and C2) -/

lemma pas_procs_state_cases (DQ : Nat) (x : KState) (j i : Fin 64) :
    ((penaltyAndSwitch DQ x j).procs i).state = (x.procs i).state ∨
    ((penaltyAndSwitch DQ x j).procs i).state = .RUNNING ∨
    ((penaltyAndSwitch DQ x j).procs i).state = .READY := by
  unfold penaltyAndSwitch
  have hd := switchTo_procs_state (penalize DQ x j) j i
  split_ifs at hd
  · left
    rw [hd, penalize_procs_state]
  · right
    left
    exact hd
  · right
    right
    exact hd
  · left
    rw [hd, penalize_procs_state]

/-- A `schedule()` call can only leave a slot's state unchanged, promote
it to RUNNING, or demote/heal it to READY — it never blocks anything. -/
lemma schedule_procs_state_cases (DQ : Nat) (s : KState) (i : Fin 64) :
    ((schedule DQ s).procs i).state = (s.procs i).state ∨
    ((schedule DQ s).procs i).state = .RUNNING ∨
    ((schedule DQ s).procs i).state = .READY := by
  simp only [schedule]
  split
  · rcases pas_procs_state_cases DQ _ _ i with h | h
    · left
      rw [h, agingPhase_procs_state]
    · right
      exact h
  · rcases pas_procs_state_cases DQ
        (if ((agingPhase { s with needReschedule := false }).procs (0 : Fin 64)).state ≠
              .RUNNING ∧
            ((agingPhase { s with needReschedule := false }).procs (0 : Fin 64)).state ≠
              .READY then
          updProc (agingPhase { s with needReschedule := false }) (0 : Fin 64)
            { (agingPhase { s with needReschedule := false }).procs (0 : Fin 64) with
              state := .READY }
        else agingPhase { s with needReschedule := false }) (0 : Fin 64) i with h | h
    · revert h
      split
      · intro h
        rw [updProc_procs] at h
        by_cases hi0 : i = (0 : Fin 64)
        · rw [if_pos hi0] at h
          right
          right
          exact h
        · rw [if_neg hi0] at h
          left
          rw [h, agingPhase_procs_state]
      · intro h
        left
        rw [h, agingPhase_procs_state]
    · right
      exact h

/-- `schedule()` never touches any PCB's block reason. -/
lemma schedule_procs_blockReason (DQ : Nat) (s : KState) (i : Fin 64) :
    ((schedule DQ s).procs i).blockReason = (s.procs i).blockReason := by
  simp only [schedule]
  split
  · unfold penaltyAndSwitch
    rw [switchTo_procs_blockReason, penalize_procs_blockReason,
      agingPhase_procs_blockReason]
  · unfold penaltyAndSwitch
    rw [switchTo_procs_blockReason, penalize_procs_blockReason]
    split
    · rw [updProc_procs]
      by_cases hi0 : i = (0 : Fin 64)
      · rw [if_pos hi0]
        subst hi0
        show ((agingPhase { s with needReschedule := false }).procs
          (0 : Fin 64)).blockReason = _
        rw [agingPhase_procs_blockReason]
      · rw [if_neg hi0]
        rw [agingPhase_procs_blockReason]
    · rw [agingPhase_procs_blockReason]

/-- Concrete semaphore scenario: `count = 0` and the process in slot 1
(the current process) is about to execute one `sem_wait` loop
iteration. -/
def C1sys : SemSys :=
  { count := 0
    semLock := false
    kern := C5state }

/-- Counterexample to claim C1 as stated: in the code's `sem_wait`, a
caller that finds `count ≤ 0` is NOT put into state BLOCKED with
reason WAIT (there is no wait queue to enqueue it on — the semaphore
structure consists of `count` alone); it merely yields through
`schedule()` and will retry. -/
theorem C1_counterexample :
    C1sys.count ≤ 0 ∧
    (semWaitIter 3 C1sys).2 = false ∧
    ((semWaitIter 3 C1sys).1.kern.procs (1 : Fin 64)).state ≠ .BLOCKED ∧
    ((semWaitIter 3 C1sys).1.kern.procs (1 : Fin 64)).blockReason ≠ .WAIT := by
  refine ⟨by decide, by decide, by decide, by decide⟩

/-- Claim C1 amended: when `count ≤ 0`, a `sem_wait` iteration acquires
nothing, leaves `count` unchanged, releases the spinlock BEFORE
yielding, and yields through `schedule()`; no process's block reason
is ever set (in particular never to WAIT) and no process's state is
ever set to BLOCKED — the caller busy-waits, and grant order is
whatever order the scheduler lets waiters retry in, not FIFO. -/
theorem C1_semwait_amended (DQ : Nat) (s : SemSys) (h : s.count ≤ 0) :
    (semWaitIter DQ s).2 = false ∧
    (semWaitIter DQ s).1.count = s.count ∧
    (semWaitIter DQ s).1.semLock = false ∧
    (semWaitIter DQ s).1.kern = schedule DQ s.kern ∧
    (∀ i, ((semWaitIter DQ s).1.kern.procs i).blockReason =
      (s.kern.procs i).blockReason) ∧
    (∀ i, ((semWaitIter DQ s).1.kern.procs i).state = .BLOCKED →
      (s.kern.procs i).state = .BLOCKED) := by
  have hnot : ¬ s.count > 0 := by omega
  have hiter : semWaitIter DQ s =
      ({ s with semLock := false, kern := schedule DQ s.kern }, false) := by
    simp only [semWaitIter]
    rw [if_neg hnot]
  rw [hiter]
  refine ⟨rfl, rfl, rfl, rfl, ?_, ?_⟩
  · intro i
    exact schedule_procs_blockReason DQ s.kern i
  · intro i hi
    rcases schedule_procs_state_cases DQ s.kern i with hc | hc | hc
    · rw [← hc]
      exact hi
    · rw [hc] at hi
      exact absurd hi (by decide)
    · rw [hc] at hi
      exact absurd hi (by decide)

/-- Witness for the amended C1 at the concrete scenario. -/
theorem C1_semwait_amended_witness :
    (semWaitIter 3 C1sys).2 = false ∧ (semWaitIter 3 C1sys).1.count = C1sys.count :=
  ⟨(C1_semwait_amended 3 C1sys (by decide)).1,
   (C1_semwait_amended 3 C1sys (by decide)).2.1⟩

/-- Counterexample to claim C2 as stated: with a process busy-waiting in
`sem_wait` (slot 1 just failed an iteration and is looping), a
`sem_signal` still increments `count` from 0 to 1, dequeues nothing
(the scheduler state is bit-for-bit unchanged) and marks nobody READY
or clears any block reason. -/
theorem C2_counterexample :
    (semWaitIter 3 C1sys).2 = false ∧
    (semWaitIter 3 C1sys).1.count = 0 ∧
    (semSignal (semWaitIter 3 C1sys).1).count = 1 ∧
    (semSignal (semWaitIter 3 C1sys).1).kern = (semWaitIter 3 C1sys).1.kern := by
  refine ⟨by decide, by decide, by decide, rfl⟩

/-- Claim C2 amended: `sem_signal` unconditionally increments `count`
under the spinlock and modifies no PCB whatsoever — there is no wait
queue to dequeue from; a waiter resumes only by observing `count > 0`
from its own busy-wait loop. -/
theorem C2_semsignal_amended (s : SemSys) :
    (semSignal s).count = s.count + 1 ∧
    (semSignal s).semLock = false ∧
    (semSignal s).kern = s.kern :=
  ⟨rfl, rfl, rfl⟩

/-! ## Process creation (claims C4 and C9) -/

/-- Process table for the creation claims: the idle process in slot 0, a
recycled UNUSED slot 1 whose previous occupant left `quantum = 7`,
everything else zero. -/
def C4procs : Fin 64 → PCB := fun i =>
  if i = (0 : Fin 64) then idlePCB
  else if i = (1 : Fin 64) then { zeroPCB with quantum := 7 }
  else zeroPCB

/-- A heap with one free 8192-byte block. -/
def C4heap : Heap :=
  { start := 0x40100000
    blocks := [⟨8192, true⟩] }

/-- Counterexample to claim C4 as stated: `create_process` succeeds on
the recycled slot 1, sets it READY with reason NONE — but leaves the
stale `quantum = 7` in place; `quantum` is not initialised to 0 (the
source defers the quantum assignment to `schedule()`). -/
theorem C4_counterexample :
    (createProcess 100 0 5 "T" 200 C4procs C4heap 1).pid = 1 ∧
    ((createProcess 100 0 5 "T" 200 C4procs C4heap 1).procs (1 : Fin 64)).state =
      .READY ∧
    ((createProcess 100 0 5 "T" 200 C4procs C4heap 1).procs
      (1 : Fin 64)).blockReason = .NONE ∧
    ((createProcess 100 0 5 "T" 200 C4procs C4heap 1).procs (1 : Fin 64)).quantum = 7 ∧
    ((createProcess 100 0 5 "T" 200 C4procs C4heap 1).procs (1 : Fin 64)).quantum ≠
      0 := by
  refine ⟨by decide, by decide, by decide, by decide, by decide⟩

/-- Claim C4 amended: every successful `create_process` call initialises
the new PCB to state READY with `block_reason = NONE` before returning
the pid, but the `quantum` field is NOT written: it keeps whatever
value the slot held before (it is assigned `DEFAULT_QUANTUM` when the
process is first selected by `schedule`). -/
theorem C4_createProcess_amended (fn arg : Nat) (priority : Int) (name : String)
    (rff : Nat) (procs : Fin 64 → PCB) (h : Heap) (num : Int) (i : Fin 64)
    (hpid : (createProcess fn arg priority name rff procs h num).pid =
      ((i : Nat) : Int)) :
    ((createProcess fn arg priority name rff procs h num).procs i).state = .READY ∧
    ((createProcess fn arg priority name rff procs h num).procs i).blockReason =
      .NONE ∧
    ((createProcess fn arg priority name rff procs h num).procs i).quantum =
      (procs i).quantum := by
  rcases hf : (List.finRange 64).find? (fun k => (procs k).state = .UNUSED) with _ | j
  · have he : createProcess fn arg priority name rff procs h num =
        ⟨-1, procs, h, num⟩ := by
      unfold createProcess
      rw [hf]
    rw [he] at hpid
    exact absurd hpid (by simp)
  · rcases hk : kmalloc 4096 h with _ | ⟨stack, h1⟩
    · have he : createProcess fn arg priority name rff procs h num =
          ⟨-1, procs, h, num⟩ := by
        unfold createProcess
        rw [hf, hk]
      rw [he] at hpid
      exact absurd hpid (by simp)
    · have he : createProcess fn arg priority name rff procs h num =
          ⟨((j : Nat) : Int), Function.update procs j
            { procs j with
              stackAddr := stack
              pid := ((j : Nat) : Int)
              state := .READY
              priority := priority
              premptCount := 0
              wakeUpTime := 0
              cpuTime := 0
              blockReason := .NONE
              exitCode := 0
              name := name.take 15
              x19 := fn
              x20 := arg
              pc := rff
              sp := stack + 4096 }, h1, num + 1⟩ := by
        unfold createProcess
        rw [hf, hk]
      have hij : j = i := by
        rw [he] at hpid
        simp at hpid
        exact Fin.ext hpid
      subst hij
      rw [he]
      show (Function.update procs j _ j).state = .READY ∧
        (Function.update procs j _ j).blockReason = .NONE ∧
        (Function.update procs j _ j).quantum = (procs j).quantum
      rw [Function.update_same]
      exact ⟨rfl, rfl, rfl⟩

/-- Witness for the amended C4 at the concrete creation scenario. -/
theorem C4_createProcess_amended_witness :
    ((createProcess 100 0 5 "T" 200 C4procs C4heap 1).procs (1 : Fin 64)).state =
      .READY ∧
    ((createProcess 100 0 5 "T" 200 C4procs C4heap 1).procs
      (1 : Fin 64)).blockReason = .NONE ∧
    ((createProcess 100 0 5 "T" 200 C4procs C4heap 1).procs (1 : Fin 64)).quantum =
      (C4procs (1 : Fin 64)).quantum :=
  C4_createProcess_amended 100 0 5 "T" 200 C4procs C4heap 1 (1 : Fin 64) (by decide)

/-- A heap whose single free block can satisfy the 4096-byte stack
allocation of `create_user_process` but not the following 16-byte
context allocation. -/
def C9heap : Heap :=
  { start := 0x40100000
    blocks := [⟨4100, true⟩] }

/-- Claim C9 is violated by the code: with the heap exhausted mid-way,
`create_user_process` does not return the `-1` sentinel — the
unchecked `ctx = kmalloc(16)` returns null and the following
`ctx->pc = ...` store goes through the null pointer (silent
corruption / undefined behaviour).  The first allocation even
succeeded, so the failure is not the caller's to observe. -/
theorem C9_create_user_process_null_deref :
    createUserProcess 100 "U" 300 200 C4procs C9heap 1 = .nullStore ∧
    kmalloc 4096 C9heap ≠ none := by
  refine ⟨by decide, by decide⟩

/-! ## PMM free_page truncation (claim C10) -/

/-- PMM state with a fully allocated bitmap, managed region starting at
`0x42000000` (the base used by the repository's own PMM test code). -/
def C10st : VmmState :=
  { pmmMap := fun _ => 0xFF
    physStart := 0x42000000
    tables := fun _ _ => 0 }

/-- An address far beyond the 128MB managed region whose page offset is
`2^32 + 5` pages: the 64-bit quotient truncates to the `int` 5. -/
def C10addr : Nat := 0x42000000 + 4096 * (2 ^ 32 + 5)

/-- Claim C10 is violated by the code: `C10addr` lies outside the
managed region `[0x42000000, 0x42000000 + 128MB)`, yet
`free_page(C10addr)` is not a no-op — the `int index = offset /
PAGE_SIZE` narrowing turns the huge quotient into 5, which passes the
defensive range check, and bit 5 of byte 0 is cleared (byte 0 goes
from 0xFF to 0xDF), freeing a page the caller does not own. -/
theorem C10_free_page_truncation :
    C10st.physStart + 128 * 1024 * 1024 ≤ C10addr ∧
    (freePage C10st C10addr).pmmMap 0 = 0xDF ∧
    (freePage C10st C10addr).pmmMap 0 ≠ C10st.pmmMap 0 := by
  refine ⟨by decide, by decide, by decide⟩

/-! ## Table-walk failure in map_page / handle_fault (claim C8) -/

/-- The PMM has no free page: every bit of the bitmap is set. -/
def pmmExhausted (st : VmmState) : Prop :=
  ∀ i, i < 32768 → st.pmmMap (i / 8) &&& (1 <<< (i % 8)) ≠ 0

lemma getFreePage_exhausted (st : VmmState) (h : pmmExhausted st) :
    getFreePage st = (0, st) := by
  unfold getFreePage
  have hn : (List.range 32768).find?
      (fun i => st.pmmMap (i / 8) &&& (1 <<< (i % 8)) == 0) = none := by
    rw [List.find?_eq_none]
    intro x hx
    simp only [beq_iff_eq]
    exact h x (List.mem_range.mp hx)
  rw [hn]

/-- On PMM exhaustion at a missing L1 entry, `map_page` aborts with the
whole state unchanged: no leaf descriptor, no partial link, and — the
return type being `void` — no error value for the caller. -/
lemma mapPage_exhausted_noop (st : VmmState) (root virt phys flags : Nat)
    (hex : pmmExhausted st)
    (hmiss : st.tables root ((virt >>> 30) &&& 0x1FF) &&& 1 = 0) :
    mapPage st root virt phys flags = st := by
  simp only [mapPage]
  rw [if_pos hmiss, getFreePage_exhausted st hex]
  rfl

/-- The page-fault handler on a data abort when exactly one page is left
in the PMM: the page is taken, the inner `map_page` table walk then
finds the PMM exhausted and aborts without mapping anything — and
`handle_fault` nevertheless returns normally (`resolved`), it does not
terminate the process, because `map_page` reported nothing. -/
lemma handleFault_walkfail (st : VmmState) (far esr pgd : Nat)
    (hec : esr >>> 26 = 0x24 ∨ esr >>> 26 = 0x25)
    (hpp : (getFreePage st).1 ≠ 0)
    (hex : pmmExhausted (getFreePage st).2)
    (hmiss : (getFreePage st).2.tables pgd
      (((far &&& 0xFFFFFFFFFFFFF000) >>> 30) &&& 0x1FF) &&& 1 = 0) :
    (handleFault st far esr pgd).1 = .resolved ∧
    (handleFault st far esr pgd).2.tables pgd
      (((far &&& 0xFFFFFFFFFFFFF000) >>> 30) &&& 0x1FF) &&& 1 = 0 := by
  rcases hgp : getFreePage st with ⟨pp, st2⟩
  rw [hgp] at hpp hex hmiss
  dsimp only at hpp hex hmiss
  simp only [handleFault]
  rw [hgp]
  dsimp only
  rw [if_pos hec, if_pos hpp]
  refine ⟨rfl, ?_⟩
  rw [mapPage_exhausted_noop _ _ _ _ _ hex hmiss]
  exact hmiss

lemma byteFF_and_shift_ne (r : Nat) (h : r < 8) : (0xFF : Nat) &&& (1 <<< r) ≠ 0 := by
  interval_cases r <;> decide

lemma pmmExhausted_of_allFF (st : VmmState) (h : ∀ b, st.pmmMap b = 0xFF) :
    pmmExhausted st := by
  intro i _
  rw [h]
  exact byteFF_and_shift_ne (i % 8) (Nat.mod_lt _ (by norm_num))

/-- Claim C8 amended: a table-walk PMM exhaustion aborts the mapping
with no leaf descriptor written (at the first missing level the state
is altogether unchanged), but the error is NOT reported to the caller:
`map_page` returns `void`, and `handle_fault` — unable to distinguish
this failure from success — returns normally as if the fault were
resolved instead of treating the request as fatal. -/
theorem C8_mapfail_amended :
    (∀ (st : VmmState) (root virt phys flags : Nat), pmmExhausted st →
      st.tables root ((virt >>> 30) &&& 0x1FF) &&& 1 = 0 →
      mapPage st root virt phys flags = st) ∧
    (∀ (st : VmmState) (far esr pgd : Nat),
      (esr >>> 26 = 0x24 ∨ esr >>> 26 = 0x25) →
      (getFreePage st).1 ≠ 0 →
      pmmExhausted (getFreePage st).2 →
      (getFreePage st).2.tables pgd
        (((far &&& 0xFFFFFFFFFFFFF000) >>> 30) &&& 0x1FF) &&& 1 = 0 →
      (handleFault st far esr pgd).1 = .resolved ∧
      (handleFault st far esr pgd).2.tables pgd
        (((far &&& 0xFFFFFFFFFFFFF000) >>> 30) &&& 0x1FF) &&& 1 = 0) :=
  ⟨fun st root virt phys flags hex hmiss =>
      mapPage_exhausted_noop st root virt phys flags hex hmiss,
   fun st far esr pgd hec hpp hex hmiss =>
      handleFault_walkfail st far esr pgd hec hpp hex hmiss⟩

/-- PMM state in which exactly one page (index 0) is free, with an empty
root page table. -/
def C8st : VmmState :=
  { pmmMap := fun b => if b = 0 then 0xFE else 0xFF
    physStart := 0x42000000
    tables := fun _ _ => 0 }

lemma C8_getFreePage_facts :
    (getFreePage C8st).1 = 0x42000000 ∧
    (∀ b, (getFreePage C8st).2.pmmMap b = 0xFF) ∧
    (∀ a i, (getFreePage C8st).2.tables a i &&& 1 = 0) := by
  have hf : (List.range 32768).find?
      (fun i => C8st.pmmMap (i / 8) &&& (1 <<< (i % 8)) == 0) = some 0 := by
    have h1 : (32768 : Nat) = 32767 + 1 := by norm_num
    rw [h1, List.range_succ_eq_map]
    apply List.find?_cons_of_pos
    decide
  refine ⟨?_, ?_, ?_⟩
  · unfold getFreePage
    rw [hf]
    decide
  · intro b
    unfold getFreePage
    rw [hf]
    show (if b = 0 / 8 then C8st.pmmMap b ||| 1 <<< (0 % 8) else C8st.pmmMap b) = 0xFF
    by_cases hb : b = 0
    · subst hb
      decide
    · rw [if_neg (by omega)]
      show (if b = 0 then 0xFE else 0xFF) = 255
      rw [if_neg hb]
  · intro a i
    unfold getFreePage
    rw [hf]
    show Function.update C8st.tables _ (fun _ => 0) a i &&& 1 = 0
    rw [Function.update_apply]
    split
    · exact Nat.zero_and 1
    · exact Nat.zero_and 1

/-- Counterexample to claim C8 as stated: at `C8st` (one free page, empty
root table) a kernel-mode data abort at `0x123456` consumes the last
page, the table walk then aborts, no mapping is created (the L1 entry
for the faulting address is still invalid) — yet `handle_fault`
returns `resolved` rather than treating the request as fatal: no error
reached it. -/
theorem C8_counterexample :
    (handleFault C8st 0x123456 (0x24 <<< 26) 0x40300000).1 = .resolved ∧
    (handleFault C8st 0x123456 (0x24 <<< 26) 0x40300000).2.tables 0x40300000
      (((0x123456 &&& 0xFFFFFFFFFFFFF000) >>> 30) &&& 0x1FF) &&& 1 = 0 := by
  obtain ⟨h1, h2, h3⟩ := C8_getFreePage_facts
  refine handleFault_walkfail C8st 0x123456 (0x24 <<< 26) 0x40300000 ?_ ?_ ?_ ?_
  · left
    decide
  · rw [h1]
    decide
  · exact pmmExhausted_of_allFF _ h2
  · exact h3 0x40300000 _

/-- Witness for the amended C8: at the fully exhausted PMM state
`C10st`, mapping any address through the empty root table leaves the
state unchanged. -/
theorem C8_mapfail_amended_witness :
    mapPage C10st 0x40300000 0x123456 0x42000000 0 = C10st :=
  C8_mapfail_amended.1 C10st 0x40300000 0x123456 0x42000000 0
    (pmmExhausted_of_allFF C10st (fun _ => rfl)) (by decide)

end BareMetal
